import Mathlib

/-!
# Shallow embedding of the agent-duelist benchmark engine and CI gate

This file embeds the core of the `agent-duelist` repository in Lean 4 and
proves the specification claims about it:

* `src/ci.ts` — statistics aggregator (`computeScorerStats`, `computeStats`),
  regression/improvement classifier (`detectRegression`, `detectImprovement`,
  `compareResults`), cost gate (`computeCostSummary`) and baseline store
  (`loadBaseline`, `saveBaseline`);
* `src/runner.ts` — the benchmark execution engine (`runBenchmarks`,
  `withTimeout`);
* `src/arena.ts` — configuration validation (`defineArena`);
* `src/scorers/*` — the built-in `latency`, `cost` and `correctness` scorers.

Modelling conventions:

* JavaScript numbers are modelled as exact rationals (`ℚ`) wherever the code
  only uses field operations and comparisons, and as real numbers (`ℝ`) in
  `computeScorerStats`, which applies `Math.sqrt`.  Binary floating-point
  rounding is abstracted to exact arithmetic.
* JSON values (`JSON.parse` output, `unknown` fields) are the inductive
  `Json` below.
* Asynchronous provider calls are modelled by a deterministic outcome oracle
  per (task, run index): each call either fulfils with a `TaskResult`,
  rejects with a thrown value, or fails to settle before the timeout.
* The file system is an association list from paths to file contents, and
  `new Date()` is an explicit `IsoDate` argument.
-/

namespace Duelist

/-- JSON values (the possible results of `JSON.parse`, and the model of
`unknown`-typed fields).  Numbers are exact rationals. -/
inductive Json where
  | null
  | bool (b : Bool)
  | num (q : ℚ)
  | str (s : String)
  | arr (elems : List Json)
  | obj (fields : List (String × Json))

/-- JavaScript property access `j[k]` for a JSON value: a lookup on objects
(`JSON.parse` produces objects with distinct keys), `undefined` (here `none`)
on every other value except `null`, whose property access throws — callers
below handle the `null` case before calling this. -/
def Json.lookup (k : String) : Json → Option Json
  | .obj fields => fields.lookup k
  | _ => none

/-- Extract a JSON number, if the value is one. -/
def Json.asNum : Json → Option ℚ
  | .num q => some q
  | _ => none

/-- Is this JSON value `null`?  (Used to model `??`, which treats `null`
and `undefined` alike.) -/
def Json.isNull : Json → Bool
  | .null => true
  | _ => false

-- ── Data model (src/providers/types.ts, src/tasks/types.ts, src/runner.ts) ──

/-- `usage?: { promptTokens?: number; completionTokens?: number }` -/
structure Usage where
  promptTokens : Option ℚ
  completionTokens : Option ℚ

/-- `ToolCall { name, arguments, result? }` — `unknown` fields are JSON. -/
structure ToolCall where
  name : String
  arguments : Json
  result : Option Json

/-- `TaskResult` — the output of one provider invocation.
`output: string | Record<string, unknown>` is a JSON value. -/
structure TaskResult where
  output : Json
  usage : Option Usage
  latencyMs : ℚ
  raw : Option Json
  toolCalls : Option (List ToolCall)

/-- `ScoreResult { name, value, details? }` (src/scorers/types.ts). -/
structure ScoreResult where
  name : String
  value : ℚ
  details : Option Json

/-- The `raw` payload of a `BenchmarkResult`. -/
structure RawInfo where
  output : Json
  latencyMs : ℚ
  usage : Option Usage
  toolCalls : Option (List ToolCall)

/-- `BenchmarkResult` — one record per (provider, task, run) cell. -/
structure BenchmarkResult where
  providerId : String
  taskName : String
  run : ℕ
  scores : List ScoreResult
  error : Option String
  raw : RawInfo

/-- `ToolDefinition` — `parameters: ZodSchema` is opaque, modelled as JSON. -/
structure ToolDefinition where
  name : String
  description : String
  parameters : Json

/-- `ArenaTask { name, prompt, expected?, schema?, tools? }`.
`schema: ZodSchema` is opaque and modelled as JSON. -/
structure ArenaTask where
  name : String
  prompt : String
  expected : Option Json
  schema : Option Json
  tools : Option (List ToolDefinition)

/-- JavaScript truthiness of the optional string field `error?: string`:
`if (r.error)` is false for a missing field and for the empty string. -/
def jsTruthy : Option String → Bool
  | none => false
  | some s => s ≠ ""

-- ── Statistics (src/ci.ts) ──────────────────────────────────────────────

/-- `ScorerStats` — descriptive statistics for one (provider, task, scorer)
group.  Parametric in the number type: `ℝ` where they are produced by
`computeScorerStats` (whose standard deviation needs `Real.sqrt`), `ℚ` where
the classifier consumes them. -/
structure ScorerStats (α : Type) where
  mean : α
  stddev : α
  cv : α
  n : ℕ
  ci95Lower : α
  ci95Upper : α

/-- `LOWER_IS_BETTER` — scorers where lower values are better. -/
def LOWER_IS_BETTER : List String := ["cost"]

/-- `FLAKY_CV_THRESHOLD` — CV threshold above which a scorer is flaky. -/
def FLAKY_CV_THRESHOLD : ℚ := 0.3

/-- `T_CRITICAL_95` — t-distribution critical values for a 95% two-tailed
CI, keyed by degrees of freedom. -/
def T_CRITICAL_95 : List (ℚ × ℚ) :=
  [(1, 12.706), (2, 4.303), (3, 3.182), (4, 2.776), (5, 2.571),
   (6, 2.447), (7, 2.365), (8, 2.306), (9, 2.262), (10, 2.228),
   (15, 2.131), (20, 2.086), (25, 2.060), (30, 2.042)]

/-- `T_CRITICAL_KEYS` — the table's keys, sorted ascending (the source
computes this by sorting `Object.keys(T_CRITICAL_95)` numerically). -/
def T_CRITICAL_KEYS : List ℚ :=
  [1, 2, 3, 4, 5, 6, 7, 8, 9, 10, 15, 20, 25, 30]

/-- Exact lookup `T_CRITICAL_95[df]`. -/
def tableLookup : List (ℚ × ℚ) → ℚ → Option ℚ
  | [], _ => none
  | (k, v) :: rest, df => if df = k then some v else tableLookup rest df

/-- The interpolation loop of `tCritical`: walk adjacent key pairs and
linearly interpolate when `df` lies strictly between them; fall through to
the z-approximation 1.96. -/
def interpLoop : List ℚ → ℚ → ℚ
  | low :: high :: rest, df =>
      if low < df ∧ df < high then
        let ratio := (df - low) / (high - low)
        (tableLookup T_CRITICAL_95 low).getD 1.96 +
          ratio * ((tableLookup T_CRITICAL_95 high).getD 1.96 -
                   (tableLookup T_CRITICAL_95 low).getD 1.96)
      else interpLoop (high :: rest) df
  | _, _ => 1.96

/-- `tCritical(df)` — critical value of the t distribution at 95%,
from the fixed table, linearly interpolated between tabulated degrees of
freedom, with the normal approximation 1.96 for `df ≤ 0` or `df > 30`. -/
def tCritical (df : ℚ) : ℚ :=
  if df ≤ 0 then 1.96
  else
    match tableLookup T_CRITICAL_95 df with
    | some v => v
    | none =>
        if df > 30 then 1.96
        else interpLoop T_CRITICAL_KEYS df

/-- `computeScorerStats(samples)` — mean, unbiased sample standard
deviation, coefficient of variation and 95% confidence interval of a sample
list.  Lives over `ℝ` because of `Math.sqrt`. -/
noncomputable def computeScorerStats (samples : List ℝ) : ScorerStats ℝ :=
  let n := samples.length
  if n = 0 then
    { mean := 0, stddev := 0, cv := 0, n := 0, ci95Lower := 0, ci95Upper := 0 }
  else
    let mean := samples.foldl (· + ·) (0 : ℝ) / (n : ℝ)
    if n = 1 then
      { mean := mean, stddev := 0, cv := 0, n := 1, ci95Lower := mean, ci95Upper := mean }
    else
      let variance := samples.foldl (fun sum x => sum + (x - mean) ^ 2) (0 : ℝ) / ((n : ℝ) - 1)
      let stddev := Real.sqrt variance
      let cv := if mean ≠ 0 then stddev / |mean| else 0
      let se := stddev / Real.sqrt (n : ℝ)
      let t := ((tCritical ((n : ℚ) - 1) : ℚ) : ℝ)
      { mean := mean, stddev := stddev, cv := cv, n := n,
        ci95Lower := mean - t * se, ci95Upper := mean + t * se }

/-- `groupKey(providerId, taskName, scorerName)` — the string key
`providerId::taskName::scorerName`. -/
def groupKey (providerId taskName scorerName : String) : String :=
  providerId ++ "::" ++ taskName ++ "::" ++ scorerName

/-- Append a sample to the bucket for `k`, creating the bucket at the end on
first use.  Models pushing into a `Map<string, number[]>`, which iterates
keys in insertion order. -/
def insertSample (m : List (String × List ℚ)) (k : String) (v : ℚ) :
    List (String × List ℚ) :=
  match m with
  | [] => [(k, [v])]
  | (k', vs) :: rest =>
      if k' = k then (k', vs ++ [v]) :: rest else (k', vs) :: insertSample rest k v

/-- One score of one result accumulated into the grouping map
(`if (score.value < 0) continue`). -/
def addScore (r : BenchmarkResult) (m : List (String × List ℚ)) (s : ScoreResult) :
    List (String × List ℚ) :=
  if s.value < 0 then m
  else insertSample m (groupKey r.providerId r.taskName s.name) s.value

/-- One result accumulated into the grouping map (`if (r.error) continue`). -/
def addResult (m : List (String × List ℚ)) (r : BenchmarkResult) :
    List (String × List ℚ) :=
  if jsTruthy r.error then m else r.scores.foldl (addScore r) m

/-- The `grouped` map built by the first loop of `computeStats`. -/
def groupSamples (results : List BenchmarkResult) : List (String × List ℚ) :=
  results.foldl addResult []

/-- `computeStats(results)` — group score values by
`providerId::taskName::scorerName` and reduce each bucket with
`computeScorerStats` (the collected rationals are viewed as reals there). -/
noncomputable def computeStats (results : List BenchmarkResult) :
    List (String × ScorerStats ℝ) :=
  (groupSamples results).map (fun kv => (kv.1, computeScorerStats (List.map (Rat.cast : ℚ → ℝ) kv.2)))

-- ── Cost gate (src/ci.ts: computeCostSummary) ───────────────────────────

/-- `CostSummary` — total and per-provider realized spend.  The
`perProvider` map is an insertion-ordered association list. -/
structure CostSummary where
  totalUsd : ℚ
  perProvider : List (String × ℚ)
  budget : Option ℚ
  overBudget : Bool

/-- `perProvider.set(id, (perProvider.get(id) ?? 0) + usd)` on an
insertion-ordered map. -/
def bumpProvider (m : List (String × ℚ)) (id : String) (usd : ℚ) :
    List (String × ℚ) :=
  match m with
  | [] => [(id, usd)]
  | (k, v) :: rest =>
      if k = id then (k, v + usd) :: rest else (k, v) :: bumpProvider rest id usd

/-- `costScore.details?.estimatedUsd ?? 0` — the realized USD estimate
carried in a cost score's details (0 when absent or `null`).  A non-number
`estimatedUsd`, which well-typed scorers never produce, is also modelled
as 0. -/
def estUsdOf (s : ScoreResult) : ℚ :=
  ((s.details.bind (Json.lookup "estimatedUsd")).bind Json.asNum).getD 0

/-- The accumulation step of `computeCostSummary` for one result. -/
def costStep (acc : ℚ × List (String × ℚ)) (r : BenchmarkResult) :
    ℚ × List (String × ℚ) :=
  if jsTruthy r.error then acc
  else
    match r.scores.find? (fun s => s.name = "cost") with
    | none => acc
    | some costScore =>
        if costScore.value < 0 then acc
        else
          let usd := estUsdOf costScore
          if usd ≤ 0 then acc
          else (acc.1 + usd, bumpProvider acc.2 r.providerId usd)

/-- `computeCostSummary(results, budget?)` — sum realized cost over
non-error results with a usable cost score; flag `overBudget` when a budget
is set and exceeded. -/
def computeCostSummary (results : List BenchmarkResult) (budget : Option ℚ) :
    CostSummary :=
  let acc := results.foldl costStep (0, [])
  { totalUsd := acc.1
    perProvider := acc.2
    budget := budget
    overBudget := match budget with
                  | some b => decide (acc.1 > b)
                  | none => false }

-- ── Classifier (src/ci.ts: detectRegression, detectImprovement) ─────────

/-- `detectRegression(baseline, current, threshold, lowerIsBetter)`. -/
def detectRegression (baseline current : ScorerStats ℚ) (threshold : ℚ)
    (lowerIsBetter : Bool) : Bool :=
  -- For single-run comparisons: simple delta
  if baseline.n = 1 ∧ current.n = 1 then
    let delta := current.mean - baseline.mean
    if lowerIsBetter then decide (delta > threshold) else decide (delta < -threshold)
  -- Multi-run: conservative CI comparison
  else if lowerIsBetter then
    decide (current.ci95Lower - baseline.ci95Upper > threshold)
  else
    decide (baseline.ci95Upper - current.ci95Lower > threshold) &&
      decide (current.mean < baseline.mean)

/-- `detectImprovement(baseline, current, threshold, lowerIsBetter)`. -/
def detectImprovement (baseline current : ScorerStats ℚ) (threshold : ℚ)
    (lowerIsBetter : Bool) : Bool :=
  if baseline.n = 1 ∧ current.n = 1 then
    let delta := current.mean - baseline.mean
    if lowerIsBetter then decide (delta < -threshold) else decide (delta > threshold)
  else if lowerIsBetter then
    decide (baseline.ci95Lower - current.ci95Upper > threshold)
  else
    decide (current.ci95Lower - baseline.ci95Upper > threshold)

-- ── Comparison report (src/ci.ts: compareResults) ───────────────────────

/-- `ScorerComparison` — one classified (provider, task, scorer) group. -/
structure ScorerComparison where
  providerId : String
  taskName : String
  scorerName : String
  baseline : Option (ScorerStats ℚ)
  current : ScorerStats ℚ
  delta : Option ℚ
  regressed : Bool
  improved : Bool
  flaky : Bool

/-- `CiReport` — the classifier's output. -/
structure CiReport where
  comparisons : List ScorerComparison
  cost : CostSummary
  failed : Bool
  flakyResults : List ScorerComparison
  failureReasons : List String

/-- `"a::b::c".split("::")`, on the character list of a string.  JavaScript's
`split` scans left to right for non-overlapping separator occurrences. -/
def splitOnColons (acc : List Char) : List Char → List (List Char)
  | [] => [acc]
  | ':' :: ':' :: rest => acc :: splitOnColons [] rest
  | c :: rest => splitOnColons (acc ++ [c]) rest

/-- `key.split('::')`. -/
def jsSplitDoubleColon (s : String) : List String :=
  (splitOnColons [] s.data).map (fun cs => String.mk cs)

/-- `Number.prototype.toFixed(digits)` on an exact rational: decimal
rounding to nearest with ties away from zero toward `+∞` on the magnitude
(binary floating-point artifacts are abstracted away). -/
def toFixed (digits : ℕ) (x : ℚ) : String :=
  let render (y : ℚ) : String :=
    let scaled : ℤ := ⌊y * (10 : ℚ) ^ digits + 1 / 2⌋
    let m : ℕ := scaled.toNat
    let intPart := m / 10 ^ digits
    let fracPart := m % 10 ^ digits
    if digits = 0 then toString intPart
    else
      let fracStr := toString fracPart
      let padded := String.mk (List.replicate (digits - fracStr.length) '0') ++ fracStr
      toString intPart ++ "." ++ padded
  if x < 0 then "-" ++ render (-x) else render x

/-- `formatDelta(delta)` (src/utils/format.ts): sign-prefixed, 4 decimal
places. -/
def formatDelta (delta : ℚ) : String :=
  (if delta ≥ 0 then "+" else "") ++ toFixed 4 delta

/-- `baselineStats?.get(key) ?? null` — the baseline entry for a group,
`none` when there is no baseline at all or no entry for this key. -/
def baselineFor (baselineStats : Option (List (String × ScorerStats ℚ)))
    (key : String) : Option (ScorerStats ℚ) :=
  (baselineStats.map (fun m => m.lookup key)).join

/-- The comparison record built for one `(key, current)` entry of
`currentStats` inside `compareResults`. -/
def mkComparison (baselineStats : Option (List (String × ScorerStats ℚ)))
    (thresholds : List (String × ℚ)) (key : String) (current : ScorerStats ℚ) :
    ScorerComparison :=
  let parts := jsSplitDoubleColon key
  -- `const [providerId, taskName, scorerName] = key.split('::')`
  -- (a missing component is JS `undefined`; modelled as "", never exercised
  -- for keys built by `groupKey`)
  let providerId := parts.getD 0 ""
  let taskName := parts.getD 1 ""
  let scorerName := parts.getD 2 ""
  let baseline := baselineFor baselineStats key
  let dri : Option ℚ × Bool × Bool :=
    match baseline with
    | none => (none, false, false)
    | some b =>
        let delta := some (current.mean - b.mean)
        match thresholds.lookup scorerName with
        | none => (delta, false, false)
        | some threshold =>
            let lowerIsBetter := LOWER_IS_BETTER.contains scorerName
            (delta, detectRegression b current threshold lowerIsBetter,
             detectImprovement b current threshold lowerIsBetter)
  let flaky := decide (current.n > 1) && decide (current.cv > FLAKY_CV_THRESHOLD)
  { providerId := providerId, taskName := taskName, scorerName := scorerName
    baseline := baseline, current := current, delta := dri.1
    regressed := dri.2.1, improved := dri.2.2, flaky := flaky }

/-- `compareResults(baselineStats, currentStats, thresholds, budget?,
currentResults?)` — classify every group of `currentStats` against the
baseline, run the cost gate, and derive the overall verdict. -/
def compareResults (baselineStats : Option (List (String × ScorerStats ℚ)))
    (currentStats : List (String × ScorerStats ℚ))
    (thresholds : List (String × ℚ)) (budget : Option ℚ)
    (currentResults : Option (List BenchmarkResult)) : CiReport :=
  let comparisons := currentStats.map
    (fun kv => mkComparison baselineStats thresholds kv.1 kv.2)
  -- Cost check
  let cost := computeCostSummary (currentResults.getD []) budget
  -- Determine failure
  let regressions := comparisons.filter (fun c => c.regressed)
  let failureReasons :=
    regressions.map (fun r =>
      r.providerId ++ " × " ++ r.taskName ++ ": " ++ r.scorerName ++
        " regressed by " ++ formatDelta (r.delta.getD 0)) ++
    (if cost.overBudget then
      ["Total cost $" ++ toFixed 4 cost.totalUsd ++ " exceeds budget $" ++
        toFixed 2 (cost.budget.getD 0)]
     else [])
  let flakyResults := comparisons.filter (fun c => c.flaky)
  let failed := decide (failureReasons.length > 0)
  { comparisons := comparisons, cost := cost, failed := failed
    flakyResults := flakyResults, failureReasons := failureReasons }

-- ── Benchmark execution engine (src/runner.ts) ──────────────────────────

/-- A JavaScript thrown/rejected value: either an `Error` (whose `.message`
is read) or any other value (passed through `String(err)`). -/
inductive Thrown where
  | errObj (message : String)
  | nonError (stringRep : String)

/-- `err instanceof Error ? err.message : String(err)`. -/
def Thrown.toMessage : Thrown → String
  | .errObj m => m
  | .nonError s => s

/-- The observable outcome of one provider invocation under the engine's
timeout: it fulfils in time, rejects in time, or fails to settle before the
timer fires. -/
inductive CallOutcome where
  | ok (result : TaskResult)
  | thrown (e : Thrown)
  | timeout

/-- `ArenaProvider` — id plus the invocation capability.  The asynchronous
`run(input)` is modelled as a deterministic outcome oracle per (task,
run index), which captures arbitrary per-call behaviour. -/
structure ArenaProvider where
  id : String
  name : String
  model : String
  behavior : ArenaTask → ℕ → CallOutcome

def DEFAULT_TIMEOUT_MS : ℕ := 60000

/-- `withTimeout(run, ms)` — resolve/reject with the call's own outcome
when it settles in time, otherwise reject with the timeout `Error`. -/
def withTimeout (outcome : CallOutcome) (ms : ℕ) : Except Thrown TaskResult :=
  match outcome with
  | .ok r => .ok r
  | .thrown e => .error e
  | .timeout => .error (.errObj ("Request timed out after " ++ toString ms ++ "ms"))

/-- `ScorerFn` — `(ctx: {task, result}, providerId) => ScoreResult`; a
scorer that throws (or returns a rejecting promise) is `.error`. -/
def ScorerFn : Type :=
  ArenaTask → TaskResult → String → Except Thrown ScoreResult

/-- `Promise.all(scorers.map(...))` — all scorers fulfil in configured
order, or the collection rejects with a failing scorer's thrown value (for
synchronous throws, the first in list order). -/
def collectScores (scorers : List ScorerFn) (task : ArenaTask)
    (result : TaskResult) (providerId : String) :
    Except Thrown (List ScoreResult) :=
  match scorers with
  | [] => .ok []
  | f :: rest =>
      match f task result providerId with
      | .error e => .error e
      | .ok s =>
          match collectScores rest task result providerId with
          | .error e => .error e
          | .ok ss => .ok (s :: ss)

/-- The `raw` payload recorded for a failed cell:
`{ output: '', latencyMs: 0 }`. -/
def errorRaw : RawInfo :=
  { output := .str "", latencyMs := 0, usage := none, toolCalls := none }

/-- The try/catch body of `runBenchmarks` for one (provider, task, run)
cell: invoke the provider under the timeout, score the result, and fold any
failure into a normal record with `error` set and `scores = []`. -/
def runCell (scorers : List ScorerFn) (timeoutMs : ℕ) (provider : ArenaProvider)
    (task : ArenaTask) (run : ℕ) : BenchmarkResult :=
  match withTimeout (provider.behavior task run) timeoutMs with
  | .ok taskResult =>
      match collectScores scorers task taskResult provider.id with
      | .ok scores =>
          { providerId := provider.id, taskName := task.name, run := run
            scores := scores, error := none
            raw := { output := taskResult.output, latencyMs := taskResult.latencyMs
                     usage := taskResult.usage, toolCalls := taskResult.toolCalls } }
      | .error e =>
          { providerId := provider.id, taskName := task.name, run := run
            scores := [], error := some e.toMessage, raw := errorRaw }
  | .error e =>
      { providerId := provider.id, taskName := task.name, run := run
        scores := [], error := some e.toMessage, raw := errorRaw }

/-- `RunOptions` for `runBenchmarks`.  The optional `onResult` progress
callback is a pure side channel (invoked once per completed cell, in
unspecified order) and is not part of the return contract, so it is not
modelled. -/
structure RunOptions where
  providers : List ArenaProvider
  tasks : List ArenaTask
  scorers : List ScorerFn
  runs : ℕ
  timeout : Option ℕ

/-- The comparator
`a._taskIdx - b._taskIdx || a._providerIdx - b._providerIdx || a.run - b.run`
as a boolean "less or equal" on tagged results. -/
def cellLE (a b : BenchmarkResult × ℕ × ℕ) : Bool :=
  if a.2.1 ≠ b.2.1 then decide (a.2.1 < b.2.1)
  else if a.2.2 ≠ b.2.2 then decide (a.2.2 < b.2.2)
  else decide (a.1.run ≤ b.1.run)

/-- `runBenchmarks(options)` — build all (task, provider) combinations,
run `runs` sequential repetitions of each (combinations themselves race
concurrently; each cell's record depends only on its own call outcome),
then flatten and sort back into canonical task → provider → run order and
strip the sort tags. -/
def runBenchmarks (o : RunOptions) : List BenchmarkResult :=
  let timeoutMs := o.timeout.getD DEFAULT_TIMEOUT_MS
  -- Build all provider × task combinations
  let combinations := o.tasks.enum.flatMap (fun ti =>
    o.providers.enum.map (fun pi => (ti.2, ti.1, pi.2, pi.1)))
  -- Sequential runs within each combination, tagged with the indices
  let nested := combinations.map (fun c =>
    (List.range o.runs).map (fun i =>
      (runCell o.scorers timeoutMs c.2.2.1 c.1 (i + 1), c.2.1, c.2.2.2)))
  -- Flatten and sort to match original ordering: task → provider → run
  ((nested.flatten).mergeSort cellLE).map (fun x => x.1)

-- ── Built-in scorers (src/scorers/latency.ts, cost.ts, correctness.ts) ──

/-- `Math.round` — round half toward `+∞`. -/
def jsRound (x : ℚ) : ℤ := ⌊x + 1 / 2⌋

/-- Latency normalization floor: responses at or below are scored 1. -/
def MIN_MS : ℚ := 500

/-- Latency normalization ceiling: responses at or above are scored 0. -/
def MAX_MS : ℚ := 10000

/-- `latencyScorer` — normalize latency to 0–1 (1 = fast ≤ 500ms, 0 = slow
≥ 10s), rounded to two decimals. -/
def latencyScorer (result : TaskResult) : ScoreResult :=
  let clamped := max MIN_MS (min MAX_MS result.latencyMs)
  let value := 1 - (clamped - MIN_MS) / (MAX_MS - MIN_MS)
  { name := "latency"
    value := (jsRound (value * 100) : ℚ) / 100
    details := some (.obj [("ms", .num result.latencyMs)]) }

mutual

/-- Structural equality of JSON values, modelling
`JSON.stringify(a) === JSON.stringify(b)` (stringification is injective on
parsed JSON values, whose key order is fixed). -/
def jsonEq : Json → Json → Bool
  | .null, .null => true
  | .bool a, .bool b => a == b
  | .num a, .num b => a == b
  | .str a, .str b => a == b
  | .arr a, .arr b => jsonEqList a b
  | .obj a, .obj b => jsonEqFields a b
  | _, _ => false

/-- Elementwise `jsonEq` on arrays. -/
def jsonEqList : List Json → List Json → Bool
  | [], [] => true
  | a :: as, b :: bs => jsonEq a b && jsonEqList as bs
  | _, _ => false

/-- Fieldwise `jsonEq` on objects. -/
def jsonEqFields : List (String × Json) → List (String × Json) → Bool
  | [], [] => true
  | (k1, v1) :: as, (k2, v2) :: bs => k1 == k2 && jsonEq v1 v2 && jsonEqFields as bs
  | _, _ => false

end

/-- Is this character trimmed by `String.prototype.trim()`?  (ASCII
whitespace; the further Unicode space characters JavaScript also trims are
not representable in the benchmark strings of interest.) -/
def isJsSpace (c : Char) : Bool :=
  c = ' ' ∨ c = '\t' ∨ c = '\n' ∨ c = '\r'

/-- `s.trim().toLowerCase()`. -/
def jsTrimLower (s : String) : String :=
  String.mk ((((s.data.dropWhile isJsSpace).reverse.dropWhile isJsSpace).reverse).map Char.toLower)

/-- `deepEqual` (src/scorers/correctness.ts): case-insensitive trimmed
comparison for two strings, JSON-stringify equality otherwise. -/
def deepEqual (a b : Json) : Bool :=
  match a, b with
  | .str x, .str y => jsTrimLower x == jsTrimLower y
  | _, _ => jsonEq a b

/-- `correctnessScorer` — exact-match correctness: 0.5 when the task has no
expected value, otherwise 1 for a match and 0 for a mismatch. -/
def correctnessScorer (task : ArenaTask) (result : TaskResult) : ScoreResult :=
  match task.expected with
  | none =>
      { name := "correctness", value := 1 / 2
        details := some (.obj [("reason", .str "no expected value")]) }
  | some expected =>
      let m := deepEqual expected result.output
      { name := "correctness", value := if m then 1 else 0
        details := some (.obj [("expected", expected), ("actual", result.output)]) }

/-- `ModelPricing` (src/pricing/lookup.ts). -/
structure ModelPricing where
  inputPerToken : ℚ
  outputPerToken : ℚ

/-- `estimateCost(pricing, promptTokens, completionTokens)`. -/
def estimateCost (pricing : ModelPricing) (promptTokens completionTokens : ℚ) : ℚ :=
  pricing.inputPerToken * promptTokens + pricing.outputPerToken * completionTokens

/-- `costScorer` — the USD estimate for the call's token usage, or the `-1`
sentinel when no pricing is known.  `lookupPricing` is passed as a
parameter: the pricing catalog (`catalog.json`, plus entries added at run
time through `registerPricing`) is data external to the embedded core, and
the claims quantify over arbitrary pricing entries. -/
def costScorer (lookupPricing : String → Option ModelPricing)
    (result : TaskResult) (providerId : String) : ScoreResult :=
  let promptTokens := (result.usage.bind (fun u => u.promptTokens)).getD 0
  let completionTokens := (result.usage.bind (fun u => u.completionTokens)).getD 0
  let totalTokens := promptTokens + completionTokens
  match lookupPricing providerId with
  | none =>
      { name := "cost", value := -1
        details := some (.obj
          [("estimatedUsd", .null),
           ("promptTokens", .num promptTokens),
           ("completionTokens", .num completionTokens),
           ("totalTokens", .num totalTokens),
           ("note", .str "No pricing data available for this model")]) }
  | some pricing =>
      let usd := estimateCost pricing promptTokens completionTokens
      { name := "cost", value := usd
        details := some (.obj
          [("estimatedUsd", .num usd),
           ("promptTokens", .num promptTokens),
           ("completionTokens", .num completionTokens),
           ("totalTokens", .num totalTokens)]) }

-- ── Arena configuration (src/arena.ts, src/scorers/index.ts) ────────────

/-- `BuiltInScorerName` — the names accepted by `resolveScorers`. -/
inductive BuiltInScorerName where
  | latency
  | cost
  | correctness
  | schemaCorrectness
  | fuzzySimilarity
  | toolUsage
  | llmJudgeCorrectness

/-- Lift a pure scorer into the engine's scorer contract. -/
def liftScorer (f : ArenaTask → TaskResult → String → ScoreResult) : ScorerFn :=
  fun task result providerId => .ok (f task result providerId)

/-- A built-in scorer whose body no claim depends on (schema-correctness,
fuzzy-similarity, tool-usage): only its existence matters to the embedded
core, so it is modelled as returning the `-1` "not applicable" sentinel. -/
def stubScorer (scorerName : String) : ScorerFn :=
  fun _ _ _ => .ok { name := scorerName, value := -1, details := none }

/-- `createLlmJudgeScorer(judgeModel?)` — the judge-model scorer performs a
network call to an external judge capability; its body is outside the
embedded core and is modelled as the `-1` sentinel. -/
def createLlmJudgeScorer (judgeModel : Option String) : ScorerFn :=
  stubScorer "llm-judge-correctness"

/-- `resolveScorers(names, judgeModel?)` — map each built-in scorer name to
its scorer function.  Total on `BuiltInScorerName` (the `Unknown scorer`
throw in the source is unreachable for the declared name union).
`lookupPricing` stands for the process-wide pricing registry the cost
scorer closes over. -/
def resolveScorers (lookupPricing : String → Option ModelPricing)
    (names : List BuiltInScorerName) (judgeModel : Option String) :
    List ScorerFn :=
  names.map (fun n =>
    match n with
    | .latency => liftScorer (fun _ r _ => latencyScorer r)
    | .cost => liftScorer (fun _ r pid => costScorer lookupPricing r pid)
    | .correctness => liftScorer (fun t r _ => correctnessScorer t r)
    | .schemaCorrectness => stubScorer "schema-correctness"
    | .fuzzySimilarity => stubScorer "fuzzy-similarity"
    | .toolUsage => stubScorer "tool-usage"
    | .llmJudgeCorrectness => createLlmJudgeScorer judgeModel)

/-- `ArenaConfig`. -/
structure ArenaConfig where
  providers : List ArenaProvider
  tasks : List ArenaTask
  scorers : Option (List BuiltInScorerName)
  runs : Option ℕ
  judgeModel : Option String

/-- `Arena` — the validated configuration plus its `run()` contract.  In
the deterministic model `run` is the record list the engine produces. -/
structure Arena where
  config : ArenaConfig
  run : List BenchmarkResult

/-- `defineArena(config)` — validate the configuration (throwing — here
`.error` — on an empty provider or task list, before any execution), then
close over the resolved scorers and run count.  `lookupPricing` stands for
the process-wide pricing registry. -/
def defineArena (lookupPricing : String → Option ModelPricing)
    (config : ArenaConfig) : Except String Arena :=
  if config.providers.length = 0 then
    .error "At least one provider is required"
  else if config.tasks.length = 0 then
    .error "At least one task is required"
  else
    let scorerNames := config.scorers.getD [.latency, .cost, .correctness]
    let scorerFns := resolveScorers lookupPricing scorerNames config.judgeModel
    let runs := config.runs.getD 1
    .ok { config := config
          run := runBenchmarks
            { providers := config.providers, tasks := config.tasks
              scorers := scorerFns, runs := runs, timeout := none } }

-- ── Baseline store (src/ci.ts: loadBaseline, saveBaseline) ──────────────

/-- The content of one file, as seen through `readFileSync` + `JSON.parse`:
either text that fails to parse, or a JSON value. -/
inductive FileData where
  | corrupt
  | json (j : Json)

/-- The file system: an association list from paths to contents. -/
def FS : Type := List (String × FileData)

/-- `writeFileSync` — overwrite or create (`mkdirSync` of the parent
directory always succeeds and needs no model). -/
def setFile (fs : FS) (path : String) (d : FileData) : FS :=
  match fs with
  | [] => [(path, d)]
  | (p, old) :: rest =>
      if p = path then (p, d) :: rest else (p, old) :: setFile rest path d

/-- A calendar date-time, the argument of `toISOString`. -/
structure IsoDate where
  year : ℕ
  month : ℕ
  day : ℕ
  hour : ℕ
  minute : ℕ
  second : ℕ
  ms : ℕ

/-- Zero-pad a natural number to `w` digits. -/
def padNum (w : ℕ) (n : ℕ) : String :=
  let s := toString n
  String.mk (List.replicate (w - s.length) '0') ++ s

/-- `Date.prototype.toISOString()` — `YYYY-MM-DDTHH:mm:ss.sssZ`. -/
def toISOString (d : IsoDate) : String :=
  padNum 4 d.year ++ "-" ++ padNum 2 d.month ++ "-" ++ padNum 2 d.day ++ "T" ++
    padNum 2 d.hour ++ ":" ++ padNum 2 d.minute ++ ":" ++ padNum 2 d.second ++
    "." ++ padNum 3 d.ms ++ "Z"

/-- `BaselineData`.  The source declares `timestamp: string`, but
`loadBaseline` fills it through an unchecked `as string` cast of whatever
JSON the file holds, so the model keeps the raw JSON value (a genuine
string after every `saveBaseline`). -/
structure BaselineData where
  timestamp : Json
  results : List Json

-- JSON encoding of a BenchmarkResult, as produced by `JSON.stringify`
-- (object keys in literal insertion order, `undefined`-valued optional
-- fields omitted).

/-- JSON encoding of a `usage` record. -/
def encodeUsage (u : Usage) : Json :=
  .obj ((match u.promptTokens with
         | some p => [("promptTokens", Json.num p)]
         | none => []) ++
        (match u.completionTokens with
         | some c => [("completionTokens", Json.num c)]
         | none => []))

/-- JSON encoding of a `ToolCall`. -/
def encodeToolCall (tc : ToolCall) : Json :=
  .obj ([("name", Json.str tc.name), ("arguments", tc.arguments)] ++
        (match tc.result with
         | some r => [("result", r)]
         | none => []))

/-- JSON encoding of a `ScoreResult`. -/
def encodeScore (s : ScoreResult) : Json :=
  .obj ([("name", Json.str s.name), ("value", Json.num s.value)] ++
        (match s.details with
         | some d => [("details", d)]
         | none => []))

/-- JSON encoding of the `raw` payload. -/
def encodeRaw (r : RawInfo) : Json :=
  .obj ([("output", r.output), ("latencyMs", Json.num r.latencyMs)] ++
        (match r.usage with
         | some u => [("usage", encodeUsage u)]
         | none => []) ++
        (match r.toolCalls with
         | some ts => [("toolCalls", Json.arr (ts.map encodeToolCall))]
         | none => []))

/-- JSON encoding of a `BenchmarkResult`. -/
def encodeResult (r : BenchmarkResult) : Json :=
  .obj ([("providerId", Json.str r.providerId),
         ("taskName", Json.str r.taskName),
         ("run", Json.num r.run),
         ("scores", Json.arr (r.scores.map encodeScore))] ++
        (match r.error with
         | some e => [("error", Json.str e)]
         | none => []) ++
        [("raw", encodeRaw r.raw)])

/-- `saveBaseline(path, results)` — write
`{timestamp: new Date().toISOString(), results}`; the clock is the explicit
`now` argument. -/
def saveBaseline (fs : FS) (path : String) (now : IsoDate)
    (results : List BenchmarkResult) : FS :=
  setFile fs path (.json (.obj
    [("timestamp", .str (toISOString now)),
     ("results", .arr (results.map encodeResult))]))

/-- `loadBaseline(path)` — tolerant load: `null` for a missing file,
unparsable JSON, or a parse result without an array of results; accepts
both `{results, timestamp}` objects and bare arrays. -/
def loadBaseline (fs : FS) (path : String) : Option BaselineData :=
  match fs.lookup path with
  | none => none                -- readFileSync throws; caught
  | some .corrupt => none       -- JSON.parse throws; caught
  | some (.json data) =>
      if data.isNull then none  -- property access on null throws; caught
      else
        -- `const results = (data.results ?? data)`
        let results := match data.lookup "results" with
                       | none => data
                       | some v => if v.isNull then data else v
        match results with
        | .arr rs =>
            -- `(data.timestamp as string) ?? 'unknown'`
            let ts := match data.lookup "timestamp" with
                      | none => Json.str "unknown"
                      | some v => if v.isNull then Json.str "unknown" else v
            some { timestamp := ts, results := rs }
        | _ => none             -- `!Array.isArray(results)`

-- ════════════════════════════════════════════════════════════════════════
-- Specification-side definitions and claim theorems
-- ════════════════════════════════════════════════════════════════════════

-- ── C1: the regression/improvement classifier formulas ──────────────────

/-- C1, spec side: the regression condition exactly as the claim states
it. -/
def claimRegressed (baseline current : ScorerStats ℚ) (threshold : ℚ)
    (lowerIsBetter : Bool) : Prop :=
  if baseline.n = 1 ∧ current.n = 1 then
    let delta := current.mean - baseline.mean
    if lowerIsBetter then delta > threshold else delta < -threshold
  else if lowerIsBetter then
    current.ci95Lower - baseline.ci95Upper > threshold
  else
    baseline.ci95Upper - current.ci95Lower > threshold ∧ current.mean < baseline.mean

/-- C1, spec side: the improvement condition exactly as the claim states
it. -/
def claimImproved (baseline current : ScorerStats ℚ) (threshold : ℚ)
    (lowerIsBetter : Bool) : Prop :=
  if baseline.n = 1 ∧ current.n = 1 then
    let delta := current.mean - baseline.mean
    if lowerIsBetter then delta < -threshold else delta > threshold
  else if lowerIsBetter then
    baseline.ci95Lower - current.ci95Upper > threshold
  else
    current.ci95Lower - baseline.ci95Upper > threshold

/-- **C1** (confirmed).  For every baseline/current `ScorerStats` pair and
configured threshold, `detectRegression`/`detectImprovement` compute
regressed and improved exactly as the claim states: plain-delta tests when
`baseline.n = 1` and `current.n = 1` (with signs determined by the scorer
polarity), confidence-interval separation otherwise (with the extra
mean-ordering guard for higher-is-better regressions), and the only
lower-is-better scorer name is `"cost"`. -/
theorem claim_C1 (baseline current : ScorerStats ℚ) (threshold : ℚ)
    (name : String) :
    (LOWER_IS_BETTER.contains name = true ↔ name = "cost") ∧
    (∀ lowerIsBetter : Bool,
      (detectRegression baseline current threshold lowerIsBetter = true ↔
        claimRegressed baseline current threshold lowerIsBetter) ∧
      (detectImprovement baseline current threshold lowerIsBetter = true ↔
        claimImproved baseline current threshold lowerIsBetter)) := by
  refine ⟨?_, fun lowerIsBetter => ⟨?_, ?_⟩⟩
  · simp [LOWER_IS_BETTER, List.contains, eq_comm]
  · unfold detectRegression claimRegressed
    split_ifs <;> simp
  · unfold detectImprovement claimImproved
    split_ifs <;> simp

-- ── C9: configuration validation in defineArena ─────────────────────────

/-- **C9** (confirmed).  `defineArena` raises the fatal configuration error
on an empty provider list or an empty task list before any execution (the
returned `Except` is `.error`, so no arena — and hence no
`BenchmarkResult` — is produced), and for every configuration with at
least one provider and one task no such configuration error is raised. -/
theorem claim_C9 (lookupPricing : String → Option ModelPricing)
    (config : ArenaConfig) :
    ((∃ a, defineArena lookupPricing config = .ok a) ↔
      (config.providers ≠ [] ∧ config.tasks ≠ [])) ∧
    (config.providers = [] →
      defineArena lookupPricing config = .error "At least one provider is required") ∧
    (config.providers ≠ [] → config.tasks = [] →
      defineArena lookupPricing config = .error "At least one task is required") := by
  unfold defineArena
  by_cases hp : config.providers = []
  · simp [hp]
  · by_cases ht : config.tasks = []
    · rw [if_neg (by simpa [List.length_eq_zero] using hp)]
      simp [hp, ht]
    · rw [if_neg (by simpa [List.length_eq_zero] using hp),
          if_neg (by simpa [List.length_eq_zero] using ht)]
      simp [hp, ht]

/-- Witness for C9: a configuration with no providers is rejected with the
provider error; one with a provider and a task is accepted. -/
theorem claim_C9_witness :
    defineArena (fun _ => none)
      { providers := [], tasks := [], scorers := none, runs := none,
        judgeModel := none } = .error "At least one provider is required" :=
  (claim_C9 (fun _ => none) _).2.1 rfl

-- ── C10: baseline round trip ────────────────────────────────────────────

lemma lookup_setFile (fs : FS) (p : String) (d : FileData) :
    (setFile fs p d).lookup p = some d := by
  induction fs with
  | nil => simp [setFile, List.lookup]
  | cons hd tl ih =>
      obtain ⟨q, old⟩ := hd
      by_cases h : q = p
      · simp [setFile, h, List.lookup]
      · simp only [setFile, if_neg h]
        rw [List.lookup_cons]
        have hbeq : (p == q) = false := beq_eq_false_iff_ne.mpr (Ne.symm h)
        simp [hbeq, ih]

lemma encodeUsage_inj_iff (u v : Usage) : encodeUsage u = encodeUsage v ↔ u = v := by
  constructor
  · obtain ⟨p1, c1⟩ := u
    obtain ⟨p2, c2⟩ := v
    cases p1 <;> cases c1 <;> cases p2 <;> cases c2 <;> simp_all [encodeUsage]
  · rintro rfl; rfl

lemma encodeToolCall_inj_iff (u v : ToolCall) :
    encodeToolCall u = encodeToolCall v ↔ u = v := by
  constructor
  · obtain ⟨n1, a1, r1⟩ := u
    obtain ⟨n2, a2, r2⟩ := v
    cases r1 <;> cases r2 <;> simp_all [encodeToolCall]
  · rintro rfl; rfl

lemma map_encodeToolCall_inj_iff (a b : List ToolCall) :
    List.map encodeToolCall a = List.map encodeToolCall b ↔ a = b :=
  ⟨fun h => List.map_injective_iff.mpr
      (fun u v huv => (encodeToolCall_inj_iff u v).mp huv) h,
   fun h => by rw [h]⟩

lemma encodeScore_inj_iff (u v : ScoreResult) :
    encodeScore u = encodeScore v ↔ u = v := by
  constructor
  · obtain ⟨n1, v1, d1⟩ := u
    obtain ⟨n2, v2, d2⟩ := v
    cases d1 <;> cases d2 <;> simp_all [encodeScore]
  · rintro rfl; rfl

lemma map_encodeScore_inj_iff (a b : List ScoreResult) :
    List.map encodeScore a = List.map encodeScore b ↔ a = b :=
  ⟨fun h => List.map_injective_iff.mpr
      (fun u v huv => (encodeScore_inj_iff u v).mp huv) h,
   fun h => by rw [h]⟩

lemma encodeRaw_inj_iff (u v : RawInfo) : encodeRaw u = encodeRaw v ↔ u = v := by
  constructor
  · obtain ⟨o1, l1, u1, t1⟩ := u
    obtain ⟨o2, l2, u2, t2⟩ := v
    cases u1 <;> cases t1 <;> cases u2 <;> cases t2 <;>
      simp_all [encodeRaw, encodeUsage_inj_iff, map_encodeToolCall_inj_iff]
  · rintro rfl; rfl

lemma encodeResult_inj (u v : BenchmarkResult) (h : encodeResult u = encodeResult v) :
    u = v := by
  obtain ⟨p1, t1, r1, s1, e1, w1⟩ := u
  obtain ⟨p2, t2, r2, s2, e2, w2⟩ := v
  cases e1 <;> cases e2 <;>
    simp_all [encodeResult, map_encodeScore_inj_iff, encodeRaw_inj_iff]

/-- **C10** (confirmed).  Saving a baseline and loading it back returns a
`BaselineData` whose results are exactly the JSON encodings of the saved
results (and the encoding is injective, i.e. the loaded results
deep-equal the saved ones) and whose timestamp is the non-empty ISO string
of the save-time clock; loading a missing or unparsable file returns
`none` without failing; and a bare JSON array of results is accepted as
well as the `{timestamp, results}` wrapper. -/
theorem claim_C10 :
    (∀ (fs : FS) (path : String) (now : IsoDate) (results : List BenchmarkResult),
      loadBaseline (saveBaseline fs path now results) path =
        some { timestamp := .str (toISOString now),
               results := results.map encodeResult }) ∧
    (∀ now : IsoDate, (toISOString now).length ≠ 0) ∧
    (∀ u v : BenchmarkResult, encodeResult u = encodeResult v → u = v) ∧
    (∀ (fs : FS) (path : String), fs.lookup path = none →
      loadBaseline fs path = none) ∧
    (∀ (fs : FS) (path : String), fs.lookup path = some .corrupt →
      loadBaseline fs path = none) ∧
    (∀ (fs : FS) (path : String) (rs : List Json),
      fs.lookup path = some (.json (.arr rs)) →
      loadBaseline fs path = some { timestamp := .str "unknown", results := rs }) := by
  refine ⟨?_, ?_, encodeResult_inj, ?_, ?_, ?_⟩
  · intro fs path now results
    unfold loadBaseline saveBaseline
    rw [lookup_setFile]
    simp [Json.isNull, Json.lookup, List.lookup]
  · intro now
    simp [toISOString, String.length_append, show ("Z" : String).length = 1 from rfl]
  · intro fs path h
    unfold loadBaseline
    rw [h]
  · intro fs path h
    unfold loadBaseline
    rw [h]
  · intro fs path rs h
    unfold loadBaseline
    rw [h]
    simp [Json.isNull, Json.lookup]

/-- Witness for C10: a concrete round trip through an initially empty file
system, plus the `none` results on a missing path and a corrupt file. -/
theorem claim_C10_witness :
    loadBaseline
        (saveBaseline [] "baseline.json"
          { year := 2026, month := 10, day := 11, hour := 0, minute := 0,
            second := 0, ms := 0 } []) "baseline.json" =
      some { timestamp := .str (toISOString
              { year := 2026, month := 10, day := 11, hour := 0, minute := 0,
                second := 0, ms := 0 }), results := [] } ∧
    loadBaseline [] "missing.json" = none ∧
    loadBaseline [("bad.json", .corrupt)] "bad.json" = none :=
  ⟨claim_C10.1 [] "baseline.json" _ [],
   claim_C10.2.2.2.1 [] "missing.json" rfl,
   claim_C10.2.2.2.2.1 [("bad.json", .corrupt)] "bad.json" rfl⟩

-- ── C6: shape of the per-group comparisons ──────────────────────────────

/-- `mkComparison` with its `let`-bound fields written out. -/
lemma mkComparison_eq (bs : Option (List (String × ScorerStats ℚ)))
    (ths : List (String × ℚ)) (key : String) (cur : ScorerStats ℚ) :
    mkComparison bs ths key cur =
      { providerId := (jsSplitDoubleColon key).getD 0 ""
        taskName := (jsSplitDoubleColon key).getD 1 ""
        scorerName := (jsSplitDoubleColon key).getD 2 ""
        baseline := baselineFor bs key
        current := cur
        delta := match baselineFor bs key with
                 | none => none
                 | some b => some (cur.mean - b.mean)
        regressed := match baselineFor bs key with
                 | none => false
                 | some b =>
                     match ths.lookup ((jsSplitDoubleColon key).getD 2 "") with
                     | none => false
                     | some th => detectRegression b cur th
                         (LOWER_IS_BETTER.contains ((jsSplitDoubleColon key).getD 2 ""))
        improved := match baselineFor bs key with
                 | none => false
                 | some b =>
                     match ths.lookup ((jsSplitDoubleColon key).getD 2 "") with
                     | none => false
                     | some th => detectImprovement b cur th
                         (LOWER_IS_BETTER.contains ((jsSplitDoubleColon key).getD 2 ""))
        flaky := decide (cur.n > 1) && decide (cur.cv > FLAKY_CV_THRESHOLD) } := by
  simp only [mkComparison]
  cases baselineFor bs key with
  | none => rfl
  | some b =>
      cases ths.lookup ((jsSplitDoubleColon key).getD 2 "") with
      | none => rfl
      | some th => rfl

/-- **C6** (confirmed).  `compareResults` emits exactly one
`ScorerComparison` per group of `currentStats`, and for each: no baseline
entry ⇒ `baseline = null`, `delta = null` and not regressed/improved
regardless of the current statistics; no configured threshold for the
scorer name ⇒ not regressed/improved even with a baseline; and
`flaky ⇔ current.n > 1 ∧ current.cv > 0.30`, independent of the baseline
comparison. -/
theorem claim_C6 (baselineStats : Option (List (String × ScorerStats ℚ)))
    (currentStats : List (String × ScorerStats ℚ))
    (thresholds : List (String × ℚ)) (budget : Option ℚ)
    (currentResults : Option (List BenchmarkResult)) :
    (compareResults baselineStats currentStats thresholds budget
        currentResults).comparisons.length = currentStats.length ∧
    ∀ (i : ℕ) (h1 : i < currentStats.length)
      (h2 : i < (compareResults baselineStats currentStats thresholds budget
                  currentResults).comparisons.length),
      (compareResults baselineStats currentStats thresholds budget
          currentResults).comparisons.get ⟨i, h2⟩ =
        mkComparison baselineStats thresholds (currentStats.get ⟨i, h1⟩).1
          (currentStats.get ⟨i, h1⟩).2 ∧
      ∀ (c : ScorerComparison) (kv : String × ScorerStats ℚ),
        c = mkComparison baselineStats thresholds kv.1 kv.2 →
        c.current = kv.2 ∧
        c.baseline = baselineFor baselineStats kv.1 ∧
        (baselineFor baselineStats kv.1 = none →
          c.baseline = none ∧ c.delta = none ∧ c.regressed = false ∧
            c.improved = false) ∧
        (thresholds.lookup c.scorerName = none →
          c.regressed = false ∧ c.improved = false) ∧
        (c.flaky = true ↔ (1 < kv.2.n ∧ (0.30 : ℚ) < kv.2.cv)) := by
  refine ⟨by simp [compareResults], ?_⟩
  intro i h1 h2
  constructor
  · exact List.get_map _
  · rintro c kv rfl
    rw [mkComparison_eq]
    refine ⟨rfl, rfl, ?_, ?_, ?_⟩
    · intro hb; rw [hb]; exact ⟨rfl, rfl, rfl, rfl⟩
    · intro ht
      have ht' : thresholds.lookup ((jsSplitDoubleColon kv.1).getD 2 "") = none := ht
      cases baselineFor baselineStats kv.1 with
      | none => exact ⟨rfl, rfl⟩
      | some b => rw [ht']; exact ⟨rfl, rfl⟩
    · simp [FLAKY_CV_THRESHOLD]
      norm_num

/-- Witness for C6: a concrete one-group comparison with no baseline is
neither regressed nor improved, and a low-variance single-sample group is
not flaky. -/
theorem claim_C6_witness :
    (compareResults none [("p::t::correctness", ⟨1, 0, 0, 1, 1, 1⟩)] []
        none none).comparisons.length = 1 ∧
    ((compareResults none [("p::t::correctness", ⟨1, 0, 0, 1, 1, 1⟩)] []
        none none).comparisons.get ⟨0, by decide⟩).regressed = false := by
  have h := claim_C6 none [("p::t::correctness", ⟨1, 0, 0, 1, 1, 1⟩)] [] none none
  refine ⟨h.1, ?_⟩
  obtain ⟨hget, hprops⟩ := h.2 0 (by decide) (by decide)
  rw [hget]
  exact ((hprops _ _ rfl).2.2.1 rfl).2.2.1

-- ── C5: the failed verdict and the cost accumulation ────────────────────

/-- C5, spec side: the realized USD estimate of a result's cost score, when
the claim counts it — a `cost` score exists with `value ≥ 0` carrying a
positive realized `estimatedUsd`. -/
def realizedUsd (r : BenchmarkResult) : Option ℚ :=
  match r.scores.find? (fun s => s.name = "cost") with
  | some s => if 0 ≤ s.value ∧ 0 < estUsdOf s then some (estUsdOf s) else none
  | none => none

/-- C5, spec side, as the claim reads with `error` "set" meaning present:
total spend over results whose `error` field is absent. -/
def specCostTotalClaim (results : List BenchmarkResult) : ℚ :=
  ((results.filter (fun r => r.error = none)).filterMap realizedUsd).sum

/-- C5, amended spec side: total spend over results without a JS-truthy
(non-empty) `error`, matching `if (r.error) continue`. -/
def specCostTotal (results : List BenchmarkResult) : ℚ :=
  ((results.filter (fun r => ¬ jsTruthy r.error)).filterMap realizedUsd).sum

lemma costStep_foldl (results : List BenchmarkResult) :
    ∀ acc : ℚ × List (String × ℚ),
      (results.foldl costStep acc).1 = acc.1 + specCostTotal results := by
  induction results with
  | nil => intro acc; simp [specCostTotal]
  | cons r rs ih =>
      intro acc
      rw [List.foldl_cons, ih]
      unfold costStep specCostTotal
      by_cases he : jsTruthy r.error
      · simp [he, specCostTotal, List.filter_cons]
      · simp only [he, if_neg, Bool.false_eq_true, not_false_eq_true,
          List.filter_cons, if_pos, List.filterMap_cons]
        cases hf : r.scores.find? (fun s => s.name = "cost") with
        | none => simp [specCostTotal, realizedUsd, hf, he]
        | some cs =>
            by_cases hv : cs.value < 0
            · have : ¬ (0 ≤ cs.value ∧ 0 < estUsdOf cs) := by
                rintro ⟨h1, _⟩; exact absurd h1 (not_le.mpr hv)
              simp [specCostTotal, realizedUsd, hf, he, hv, this]
            · by_cases hu : estUsdOf cs ≤ 0
              · have : ¬ (0 ≤ cs.value ∧ 0 < estUsdOf cs) := by
                  rintro ⟨_, h2⟩; exact absurd h2 (not_lt.mpr hu)
                simp [specCostTotal, realizedUsd, hf, he, hv, hu, this]
              · have : 0 ≤ cs.value ∧ 0 < estUsdOf cs :=
                  ⟨not_lt.mp hv, not_le.mp hu⟩
                simp [specCostTotal, realizedUsd, hf, he, hv, hu, this]
                ring

/-- **C5** (corrected).  The report fails exactly when some comparison
regressed or the cost gate is over budget (improved or flaky comparisons
alone never fail the report); `overBudget` holds exactly when a budget is
supplied and `totalUsd` exceeds it; and `totalUsd` accumulates the realized
positive `estimatedUsd` of `cost` scores with `value ≥ 0` — but over the
results without a JS-truthy error (`if (r.error) continue`), not over all
results whose `error` field is unset: a result with `error = ""` still
contributes. -/
theorem claim_C5_amended (baselineStats : Option (List (String × ScorerStats ℚ)))
    (currentStats : List (String × ScorerStats ℚ))
    (thresholds : List (String × ℚ)) (budget : Option ℚ)
    (currentResults : Option (List BenchmarkResult)) :
    ((compareResults baselineStats currentStats thresholds budget
        currentResults).failed = true ↔
      ((∃ c ∈ (compareResults baselineStats currentStats thresholds budget
          currentResults).comparisons, c.regressed = true) ∨
        (compareResults baselineStats currentStats thresholds budget
          currentResults).cost.overBudget = true)) ∧
    ((compareResults baselineStats currentStats thresholds budget
        currentResults).cost.overBudget = true ↔
      (∃ b, budget = some b ∧
        b < (compareResults baselineStats currentStats thresholds budget
              currentResults).cost.totalUsd)) ∧
    (compareResults baselineStats currentStats thresholds budget
        currentResults).cost.totalUsd = specCostTotal (currentResults.getD []) := by
  have htot : ∀ (rs : List BenchmarkResult) (b : Option ℚ),
      (computeCostSummary rs b).totalUsd = specCostTotal rs := by
    intro rs b
    unfold computeCostSummary
    simpa using costStep_foldl rs (0, [])
  have hcost : (compareResults baselineStats currentStats thresholds budget
      currentResults).cost = computeCostSummary (currentResults.getD []) budget := rfl
  have hcomp : (compareResults baselineStats currentStats thresholds budget
      currentResults).comparisons =
      currentStats.map (fun kv => mkComparison baselineStats thresholds kv.1 kv.2) := rfl
  refine ⟨?_, ?_, by rw [hcost]; exact htot _ _⟩
  · have hfailed : (compareResults baselineStats currentStats thresholds budget
        currentResults).failed = true ↔
        0 < ((currentStats.map (fun kv => mkComparison baselineStats thresholds
              kv.1 kv.2)).filter (fun c => c.regressed)).length +
          (if (computeCostSummary (currentResults.getD []) budget).overBudget
            then 1 else 0) := by
      show (decide _ = true) ↔ _
      rw [decide_eq_true_iff]
      show 0 < (List.map _ _ ++ _).length ↔ _
      rw [List.length_append, List.length_map]
      cases (computeCostSummary (currentResults.getD []) budget).overBudget <;> simp
    rw [hfailed, hcost, hcomp]
    cases hob : (computeCostSummary (currentResults.getD []) budget).overBudget
    · simp only [Bool.false_eq_true, if_false, Nat.add_zero, or_false]
      rw [List.length_pos]
      constructor
      · intro hne
        obtain ⟨c, hc⟩ := List.exists_mem_of_ne_nil _ hne
        have := List.mem_filter.mp hc
        exact ⟨c, this.1, this.2⟩
      · rintro ⟨c, hc, hreg⟩
        exact List.ne_nil_of_mem (List.mem_filter.mpr ⟨hc, hreg⟩)
    · simp
  · rw [hcost]
    cases budget with
    | none => simp [computeCostSummary]
    | some bv => simp [computeCostSummary]

/-- C5 counterexample input: a result whose `error` field is set (to the
empty string) yet whose cost score is still accumulated by the code. -/
def creC5 : BenchmarkResult :=
  { providerId := "p", taskName := "t", run := 1
    scores := [{ name := "cost", value := 1
                 details := some (.obj [("estimatedUsd", .num 1)]) }]
    error := some ""
    raw := { output := .str "", latencyMs := 0, usage := none, toolCalls := none } }

/-- **C5**, counterexample to the claim as stated: `creC5` has its `error`
field set, so the claimed accumulation rule excludes it (total 0), but
`compareResults` counts its realized cost (total 1). -/
theorem claim_C5_counterexample :
    creC5.error.isSome = true ∧
    specCostTotalClaim [creC5] = 0 ∧
    (compareResults none [] [] none (some [creC5])).cost.totalUsd = 1 := by
  refine ⟨rfl, rfl, ?_⟩
  show (computeCostSummary [creC5] none).totalUsd = 1
  norm_num [computeCostSummary, costStep, estUsdOf, jsTruthy, Json.lookup,
    Json.asNum, List.find?, List.lookup, creC5]

-- ── C2: the statistics aggregator ───────────────────────────────────────

/-- C2, spec side (amended reading): the sample values collected for group
key `k` — scores with `value ≥ 0` of results without a JS-truthy error, in
traversal order. -/
def gatherSamples (results : List BenchmarkResult) (k : String) : List ℚ :=
  (results.filter (fun r => ¬ jsTruthy r.error)).flatMap (fun r =>
    (r.scores.filter (fun s => ¬ s.value < 0)).filterMap (fun s =>
      if groupKey r.providerId r.taskName s.name = k then some s.value else none))

/-- C2, spec side, as the claim reads with `error` "set" meaning present:
samples of results whose `error` field is absent. -/
def gatherSamplesClaim (results : List BenchmarkResult) (k : String) : List ℚ :=
  (results.filter (fun r => r.error = none)).flatMap (fun r =>
    (r.scores.filter (fun s => ¬ s.value < 0)).filterMap (fun s =>
      if groupKey r.providerId r.taskName s.name = k then some s.value else none))

/-- Combine an existing bucket with newly appended samples. -/
def combineLookup (old : Option (List ℚ)) (new : List ℚ) : Option (List ℚ) :=
  if new = [] then old else some (old.getD [] ++ new)

lemma combineLookup_append (o : Option (List ℚ)) (a b : List ℚ) :
    combineLookup (combineLookup o a) b = combineLookup o (a ++ b) := by
  by_cases ha : a = [] <;> by_cases hb : b = [] <;>
    simp [combineLookup, ha, hb, List.append_assoc]

lemma lookup_insertSample (m : List (String × List ℚ)) (k : String) (v : ℚ)
    (k' : String) :
    (insertSample m k v).lookup k' =
      if k' = k then some ((m.lookup k').getD [] ++ [v]) else m.lookup k' := by
  induction m with
  | nil =>
      by_cases h : k' = k
      · simp [insertSample, List.lookup, h]
      · simp [insertSample, List.lookup, h,
          beq_eq_false_iff_ne.mpr h]
  | cons hd tl ih =>
      obtain ⟨k1, vs1⟩ := hd
      by_cases h1 : k1 = k
      · subst h1
        by_cases h2 : k' = k1
        · subst h2
          simp [insertSample, List.lookup]
        · simp [insertSample, List.lookup, beq_eq_false_iff_ne.mpr h2, h2]
      · by_cases h2 : k' = k1
        · subst h2
          simp [insertSample, h1, List.lookup, if_neg (Ne.symm h1)]
        · simp [insertSample, h1, List.lookup, beq_eq_false_iff_ne.mpr h2, ih]

/-- The per-result contribution of a score list to bucket `k`. -/
def scoreContrib (r : BenchmarkResult) (scores : List ScoreResult) (k : String) :
    List ℚ :=
  (scores.filter (fun s => ¬ s.value < 0)).filterMap (fun s =>
    if groupKey r.providerId r.taskName s.name = k then some s.value else none)

lemma foldl_addScore_lookup (r : BenchmarkResult) (k : String) :
    ∀ (scores : List ScoreResult) (m : List (String × List ℚ)),
      (scores.foldl (addScore r) m).lookup k =
        combineLookup (m.lookup k) (scoreContrib r scores k) := by
  intro scores
  induction scores with
  | nil => intro m; simp [scoreContrib, combineLookup]
  | cons s ss ih =>
      intro m
      rw [List.foldl_cons, ih]
      by_cases hv : s.value < 0
      · simp [addScore, hv, scoreContrib, List.filter_cons]
      · have hv' : 0 ≤ s.value := not_lt.mp hv
        by_cases hk : groupKey r.providerId r.taskName s.name = k
        · have hstep : (addScore r m s).lookup k =
              combineLookup (m.lookup k) [s.value] := by
            simp [addScore, hv, lookup_insertSample, hk, combineLookup]
          rw [hstep, combineLookup_append]
          simp [scoreContrib, List.filter_cons, hv, hv', List.filterMap_cons, hk]
        · have hk' : k ≠ groupKey r.providerId r.taskName s.name :=
            fun h => hk h.symm
          have hstep : (addScore r m s).lookup k = m.lookup k := by
            simp [addScore, hv, lookup_insertSample, hk']
          rw [hstep]
          simp [scoreContrib, List.filter_cons, hv, hv', List.filterMap_cons, hk]

lemma foldl_addResult_lookup (k : String) :
    ∀ (results : List BenchmarkResult) (m : List (String × List ℚ)),
      (results.foldl addResult m).lookup k =
        combineLookup (m.lookup k) (gatherSamples results k) := by
  intro results
  induction results with
  | nil => intro m; simp [gatherSamples, combineLookup]
  | cons r rs ih =>
      intro m
      rw [List.foldl_cons, ih]
      by_cases he : jsTruthy r.error
      · simp [addResult, he, gatherSamples, List.filter_cons]
      · have hstep : (addResult m r).lookup k =
            combineLookup (m.lookup k) (scoreContrib r r.scores k) := by
          simp [addResult, he, foldl_addScore_lookup]
        rw [hstep, combineLookup_append]
        have : gatherSamples (r :: rs) k =
            scoreContrib r r.scores k ++ gatherSamples rs k := by
          simp [gatherSamples, List.filter_cons, he, scoreContrib]
        rw [this]

lemma lookup_map_value (f : List ℚ → ScorerStats ℝ)
    (m : List (String × List ℚ)) (k : String) :
    (m.map (fun kv => (kv.1, f kv.2))).lookup k = (m.lookup k).map f := by
  induction m with
  | nil => simp [List.lookup]
  | cons hd tl ih =>
      obtain ⟨k1, vs1⟩ := hd
      by_cases h : k = k1
      · simp [List.lookup, h]
      · simp [List.lookup, beq_eq_false_iff_ne.mpr h, ih]

lemma computeStats_lookup (results : List BenchmarkResult) (k : String) :
    (computeStats results).lookup k =
      if gatherSamples results k = [] then none
      else some (computeScorerStats (List.map (Rat.cast : ℚ → ℝ) (gatherSamples results k))) := by
  unfold computeStats groupSamples
  rw [lookup_map_value (fun vs => computeScorerStats (List.map Rat.cast vs)),
    foldl_addResult_lookup]
  by_cases h : gatherSamples results k = [] <;>
    simp [combineLookup, h, List.lookup]

lemma computeScorerStats_nil :
    computeScorerStats [] =
      { mean := 0, stddev := 0, cv := 0, n := 0, ci95Lower := 0, ci95Upper := 0 } := by
  simp [computeScorerStats]

lemma computeScorerStats_single (x : ℝ) :
    computeScorerStats [x] =
      { mean := x, stddev := 0, cv := 0, n := 1, ci95Lower := x, ci95Upper := x } := by
  simp [computeScorerStats]

lemma computeScorerStats_formula (samples : List ℝ) (h : 2 ≤ samples.length) :
    computeScorerStats samples =
      { mean := samples.sum / (samples.length : ℝ)
        stddev := Real.sqrt
          ((samples.map (fun x => (x - samples.sum / (samples.length : ℝ)) ^ 2)).sum /
            ((samples.length : ℝ) - 1))
        cv := if samples.sum / (samples.length : ℝ) = 0 then 0
              else Real.sqrt
                ((samples.map (fun x => (x - samples.sum / (samples.length : ℝ)) ^ 2)).sum /
                  ((samples.length : ℝ) - 1)) / |samples.sum / (samples.length : ℝ)|
        n := samples.length
        ci95Lower := samples.sum / (samples.length : ℝ) -
          ((tCritical ((samples.length : ℚ) - 1) : ℚ) : ℝ) *
            (Real.sqrt
              ((samples.map (fun x => (x - samples.sum / (samples.length : ℝ)) ^ 2)).sum /
                ((samples.length : ℝ) - 1)) / Real.sqrt (samples.length : ℝ))
        ci95Upper := samples.sum / (samples.length : ℝ) +
          ((tCritical ((samples.length : ℚ) - 1) : ℚ) : ℝ) *
            (Real.sqrt
              ((samples.map (fun x => (x - samples.sum / (samples.length : ℝ)) ^ 2)).sum /
                ((samples.length : ℝ) - 1)) / Real.sqrt (samples.length : ℝ)) } := by
  have h0 : samples.length ≠ 0 := by omega
  have h1 : samples.length ≠ 1 := by omega
  have hsum : samples.foldl (· + ·) (0 : ℝ) = samples.sum :=
    (List.sum_eq_foldl).symm
  have hvar : ∀ M : ℝ, samples.foldl (fun sum x => sum + (x - M) ^ 2) (0 : ℝ) =
      (samples.map (fun x => (x - M) ^ 2)).sum := by
    intro M
    rw [List.sum_eq_foldl, List.foldl_map]
  simp only [computeScorerStats, if_neg h0, if_neg h1]
  rw [hsum, hvar (samples.sum / (samples.length : ℝ))]
  rw [ite_not]

lemma tCritical_nonpos (df : ℚ) (h : df ≤ 0) : tCritical df = 1.96 := by
  simp [tCritical, h]

lemma tableLookup_eq_none (table : List (ℚ × ℚ)) (df : ℚ)
    (h : ∀ p ∈ table, df ≠ p.1) : tableLookup table df = none := by
  induction table with
  | nil => rfl
  | cons p rest ih =>
      obtain ⟨k, v⟩ := p
      rw [tableLookup, if_neg (h (k, v) (by simp))]
      exact ih (fun q hq => h q (by simp [hq]))

lemma tCritical_tabulated (df v : ℚ) (h : (df, v) ∈ T_CRITICAL_95) :
    tCritical df = v := by
  fin_cases h <;> norm_num [tCritical, tableLookup, T_CRITICAL_95]

lemma tCritical_large (df : ℚ) (h : 30 < df) : tCritical df = 1.96 := by
  have h0 : ¬ df ≤ 0 := by linarith
  have hnone : tableLookup T_CRITICAL_95 df = none := by
    apply tableLookup_eq_none
    intro p hp
    fin_cases hp <;> rintro rfl <;> norm_num at h
  unfold tCritical
  rw [if_neg h0, hnone]
  show (if df > 30 then (1.96 : ℚ) else interpLoop T_CRITICAL_KEYS df) = 1.96
  rw [if_pos h]

lemma interpLoop_between (df : ℚ) :
    ∀ (i : ℕ) (ks : List ℚ) (h2 : i + 1 < ks.length),
      ks.Pairwise (· < ·) →
      ks.get ⟨i, by omega⟩ < df → df < ks.get ⟨i + 1, h2⟩ →
      interpLoop ks df =
        (tableLookup T_CRITICAL_95 (ks.get ⟨i, by omega⟩)).getD 1.96 +
          (df - ks.get ⟨i, by omega⟩) /
            (ks.get ⟨i + 1, h2⟩ - ks.get ⟨i, by omega⟩) *
          ((tableLookup T_CRITICAL_95 (ks.get ⟨i + 1, h2⟩)).getD 1.96 -
            (tableLookup T_CRITICAL_95 (ks.get ⟨i, by omega⟩)).getD 1.96) := by
  intro i
  induction i with
  | zero =>
      intro ks h2 hp hlo hhi
      match ks, h2 with
      | k0 :: k1 :: rest, _ =>
          show interpLoop (k0 :: k1 :: rest) df = _
          rw [interpLoop, if_pos ⟨hlo, hhi⟩]
          rfl
  | succ n ih =>
      intro ks h2 hp hlo hhi
      match ks, h2 with
      | k0 :: k1 :: rest, h2 =>
          have hp' : (k1 :: rest).Pairwise (· < ·) := hp.of_cons
          have hn : n + 1 < (k1 :: rest).length := by
            simp only [List.length_cons] at h2 ⊢
            omega
          have hn' : n < (k1 :: rest).length := by omega
          have hk1 : k1 ≤ (k1 :: rest).get ⟨n, hn'⟩ := by
            have hmem : (k1 :: rest).get ⟨n, hn'⟩ ∈ k1 :: rest := by
              apply List.get_mem
            rcases List.mem_cons.mp hmem with heq | hmemrest
            · exact le_of_eq heq.symm
            · exact le_of_lt (List.rel_of_pairwise_cons hp' hmemrest)
          have hlo' : (k1 :: rest).get ⟨n, hn'⟩ < df := hlo
          have hhi' : df < (k1 :: rest).get ⟨n + 1, hn⟩ := hhi
          have hskip : ¬ (k0 < df ∧ df < k1) := by
            rintro ⟨_, hdf⟩
            have : k1 < df := lt_of_le_of_lt hk1 hlo'
            linarith
          show interpLoop (k0 :: k1 :: rest) df = _
          rw [interpLoop, if_neg hskip]
          exact ih (k1 :: rest) hn hp' hlo' hhi'

lemma sorted_get_lt (ks : List ℚ) (hp : ks.Pairwise (· < ·)) (i j : ℕ)
    (hi : i < ks.length) (hj : j < ks.length) (hij : i < j) :
    ks.get ⟨i, hi⟩ < ks.get ⟨j, hj⟩ :=
  List.pairwise_iff_get.mp hp ⟨i, hi⟩ ⟨j, hj⟩ hij

lemma df_not_mem_of_between (ks : List ℚ) (hp : ks.Pairwise (· < ·)) (i : ℕ)
    (h2 : i + 1 < ks.length) (df : ℚ)
    (hlo : ks.get ⟨i, by omega⟩ < df) (hhi : df < ks.get ⟨i + 1, h2⟩) :
    df ∉ ks := by
  intro hmem
  obtain ⟨⟨j, hj⟩, hget⟩ := List.mem_iff_get.mp hmem
  rcases le_or_lt j i with hji | hij
  · rcases eq_or_lt_of_le hji with rfl | hlt
    · rw [hget] at hlo; exact lt_irrefl df hlo
    · have := sorted_get_lt ks hp j i hj (by omega) hlt
      rw [hget] at this
      linarith
  · have hle : i + 1 ≤ j := hij
    rcases eq_or_lt_of_le hle with rfl | hlt
    · rw [hget] at hhi; exact lt_irrefl df hhi
    · have := sorted_get_lt ks hp (i + 1) j h2 hj hlt
      rw [hget] at this
      linarith

lemma tCritical_interp (i : ℕ) (h2 : i + 1 < T_CRITICAL_KEYS.length) (df : ℚ)
    (hlo : T_CRITICAL_KEYS.get ⟨i, by omega⟩ < df)
    (hhi : df < T_CRITICAL_KEYS.get ⟨i + 1, h2⟩) :
    tCritical df =
      (tableLookup T_CRITICAL_95 (T_CRITICAL_KEYS.get ⟨i, by omega⟩)).getD 1.96 +
        (df - T_CRITICAL_KEYS.get ⟨i, by omega⟩) /
          (T_CRITICAL_KEYS.get ⟨i + 1, h2⟩ - T_CRITICAL_KEYS.get ⟨i, by omega⟩) *
        ((tableLookup T_CRITICAL_95 (T_CRITICAL_KEYS.get ⟨i + 1, h2⟩)).getD 1.96 -
          (tableLookup T_CRITICAL_95 (T_CRITICAL_KEYS.get ⟨i, by omega⟩)).getD 1.96) := by
  have hp : T_CRITICAL_KEYS.Pairwise (· < ·) := by decide
  have hnotmem : df ∉ T_CRITICAL_KEYS :=
    df_not_mem_of_between T_CRITICAL_KEYS hp i h2 df hlo hhi
  have h1le : (1 : ℚ) ≤ T_CRITICAL_KEYS.get ⟨i, by omega⟩ := by
    have hmem : T_CRITICAL_KEYS.get ⟨i, by omega⟩ ∈ T_CRITICAL_KEYS := by
      apply List.get_mem
    have hall : ∀ x ∈ T_CRITICAL_KEYS, (1 : ℚ) ≤ x := by decide
    exact hall _ hmem
  have h30 : T_CRITICAL_KEYS.get ⟨i + 1, h2⟩ ≤ 30 := by
    have hmem : T_CRITICAL_KEYS.get ⟨i + 1, h2⟩ ∈ T_CRITICAL_KEYS := by
      apply List.get_mem
    have hall : ∀ x ∈ T_CRITICAL_KEYS, x ≤ (30 : ℚ) := by decide
    exact hall _ hmem
  have h0 : ¬ df ≤ 0 := by linarith
  have hnone : tableLookup T_CRITICAL_95 df = none := by
    apply tableLookup_eq_none
    intro p hp95
    have hfst : T_CRITICAL_95.map Prod.fst = T_CRITICAL_KEYS := by decide
    have hmemkeys : p.1 ∈ T_CRITICAL_KEYS := by
      rw [← hfst]; exact List.mem_map_of_mem Prod.fst hp95
    exact fun he => hnotmem (he ▸ hmemkeys)
  unfold tCritical
  rw [if_neg h0, hnone]
  show (if df > 30 then (1.96 : ℚ) else interpLoop T_CRITICAL_KEYS df) = _
  rw [if_neg (by linarith)]
  exact interpLoop_between df i T_CRITICAL_KEYS h2 hp hlo hhi

/-- **C2** (corrected).  `computeStats` discards every score with
`value < 0` and groups the remaining score values under
`providerId::taskName::scorerName`, reducing each group with
`computeScorerStats`: all-zero stats for an empty sample list, the
collapsed point stats for one sample, and for `n ≥ 2` the mean, unbiased
sample standard deviation, `cv = stddev/|mean|` (0 when the mean is 0) and
`mean ∓ t(n-1)·stddev/√n` confidence bounds, with `t` from the fixed
critical-value table, linearly interpolated between adjacent tabulated
degrees of freedom and 1.96 for `df ≤ 0` or `df > 30`.  Amendment: a
result is discarded when its `error` is a *non-empty* string
(`if (r.error) continue` — JS truthiness), not whenever the `error` field
is set; `error = ""` is not discarded. -/
theorem claim_C2_amended :
    (∀ (results : List BenchmarkResult) (k : String),
      (computeStats results).lookup k =
        if gatherSamples results k = [] then none
        else some (computeScorerStats
          (List.map (Rat.cast : ℚ → ℝ) (gatherSamples results k)))) ∧
    computeScorerStats [] =
      { mean := 0, stddev := 0, cv := 0, n := 0, ci95Lower := 0, ci95Upper := 0 } ∧
    (∀ x : ℝ, computeScorerStats [x] =
      { mean := x, stddev := 0, cv := 0, n := 1, ci95Lower := x, ci95Upper := x }) ∧
    (∀ samples : List ℝ, 2 ≤ samples.length →
      computeScorerStats samples =
        { mean := samples.sum / (samples.length : ℝ)
          stddev := Real.sqrt
            ((samples.map (fun x => (x - samples.sum / (samples.length : ℝ)) ^ 2)).sum /
              ((samples.length : ℝ) - 1))
          cv := if samples.sum / (samples.length : ℝ) = 0 then 0
                else Real.sqrt
                  ((samples.map (fun x => (x - samples.sum / (samples.length : ℝ)) ^ 2)).sum /
                    ((samples.length : ℝ) - 1)) / |samples.sum / (samples.length : ℝ)|
          n := samples.length
          ci95Lower := samples.sum / (samples.length : ℝ) -
            ((tCritical ((samples.length : ℚ) - 1) : ℚ) : ℝ) *
              (Real.sqrt
                ((samples.map (fun x => (x - samples.sum / (samples.length : ℝ)) ^ 2)).sum /
                  ((samples.length : ℝ) - 1)) / Real.sqrt (samples.length : ℝ))
          ci95Upper := samples.sum / (samples.length : ℝ) +
            ((tCritical ((samples.length : ℚ) - 1) : ℚ) : ℝ) *
              (Real.sqrt
                ((samples.map (fun x => (x - samples.sum / (samples.length : ℝ)) ^ 2)).sum /
                  ((samples.length : ℝ) - 1)) / Real.sqrt (samples.length : ℝ)) }) ∧
    (∀ df : ℚ, df ≤ 0 → tCritical df = 1.96) ∧
    (∀ df v : ℚ, (df, v) ∈ T_CRITICAL_95 → tCritical df = v) ∧
    (∀ df : ℚ, 30 < df → tCritical df = 1.96) ∧
    (∀ (i : ℕ) (h2 : i + 1 < T_CRITICAL_KEYS.length) (df : ℚ),
      T_CRITICAL_KEYS.get ⟨i, by omega⟩ < df →
      df < T_CRITICAL_KEYS.get ⟨i + 1, h2⟩ →
      tCritical df =
        (tableLookup T_CRITICAL_95 (T_CRITICAL_KEYS.get ⟨i, by omega⟩)).getD 1.96 +
          (df - T_CRITICAL_KEYS.get ⟨i, by omega⟩) /
            (T_CRITICAL_KEYS.get ⟨i + 1, h2⟩ - T_CRITICAL_KEYS.get ⟨i, by omega⟩) *
          ((tableLookup T_CRITICAL_95 (T_CRITICAL_KEYS.get ⟨i + 1, h2⟩)).getD 1.96 -
            (tableLookup T_CRITICAL_95 (T_CRITICAL_KEYS.get ⟨i, by omega⟩)).getD 1.96)) :=
  ⟨computeStats_lookup, computeScorerStats_nil, computeScorerStats_single,
   computeScorerStats_formula, tCritical_nonpos, tCritical_tabulated,
   tCritical_large, tCritical_interp⟩

/-- C2 counterexample input: a result with `error` set to the empty
string. -/
def creC2 : BenchmarkResult :=
  { providerId := "p", taskName := "t", run := 1
    scores := [{ name := "s", value := 1, details := none }]
    error := some ""
    raw := { output := .str "", latencyMs := 0, usage := none, toolCalls := none } }

/-- **C2**, counterexample to the claim as stated: `creC2`'s `error` field
is set, so the claimed rule discards it and predicts no group at all, but
`computeStats` still produces a group for its score. -/
theorem claim_C2_counterexample :
    creC2.error.isSome = true ∧
    gatherSamplesClaim [creC2] "p::t::s" = [] ∧
    (computeStats [creC2]).lookup "p::t::s" ≠ none := by
  refine ⟨rfl, rfl, ?_⟩
  rw [computeStats_lookup]
  have hg : gatherSamples [creC2] "p::t::s" = [1] := by decide
  rw [hg]
  simp

/-- C2 witness input: an ordinary non-error result with one score. -/
def creW2 : BenchmarkResult :=
  { providerId := "p", taskName := "t", run := 1
    scores := [{ name := "s", value := 1, details := none }]
    error := none
    raw := { output := .str "", latencyMs := 0, usage := none, toolCalls := none } }

/-- Witness for C2: the grouping characterization at a concrete result,
and the `n ≥ 2` formula and t-table cases at concrete inputs. -/
theorem claim_C2_witness :
    (computeStats [creW2]).lookup "p::t::s" =
      some (computeScorerStats [((1 : ℚ) : ℝ)]) ∧
    tCritical (-1) = 1.96 ∧
    tCritical 1 = 12.706 ∧
    tCritical 31 = 1.96 := by
  refine ⟨?_, ?_, ?_, ?_⟩
  · have h := claim_C2_amended.1 [creW2] "p::t::s"
    have hg : gatherSamples [creW2] "p::t::s" = [1] := by decide
    rw [hg] at h
    simpa using h
  · exact claim_C2_amended.2.2.2.2.1 (-1) (by decide)
  · exact claim_C2_amended.2.2.2.2.2.1 1 12.706 (List.mem_cons_self _ _)
  · exact claim_C2_amended.2.2.2.2.2.2.1 31 (by decide)

-- ── The engine's canonical order (shared by C3, C4, C7) ─────────────────

/-- Spec side: the canonical result list — task-declaration order, then
provider-declaration order, then run index `1..N`. -/
def canonicalCells (o : RunOptions) : List BenchmarkResult :=
  o.tasks.flatMap (fun t => o.providers.flatMap (fun p =>
    (List.range o.runs).map (fun i =>
      runCell o.scorers (o.timeout.getD DEFAULT_TIMEOUT_MS) p t (i + 1))))

lemma runCell_proj (s : List ScorerFn) (ms : ℕ) (p : ArenaProvider)
    (t : ArenaTask) (r : ℕ) :
    (runCell s ms p t r).providerId = p.id ∧
    (runCell s ms p t r).taskName = t.name ∧
    (runCell s ms p t r).run = r := by
  unfold runCell
  split
  · split <;> exact ⟨rfl, rfl, rfl⟩
  · exact ⟨rfl, rfl, rfl⟩

lemma cellLE_of_task {x y : BenchmarkResult × ℕ × ℕ} (h : x.2.1 < y.2.1) :
    cellLE x y = true := by
  simp [cellLE, Nat.ne_of_lt h, h]

lemma cellLE_of_prov {x y : BenchmarkResult × ℕ × ℕ} (h1 : x.2.1 = y.2.1)
    (h2 : x.2.2 < y.2.2) : cellLE x y = true := by
  simp [cellLE, h1, Nat.ne_of_lt h2, h2]

lemma cellLE_of_run {x y : BenchmarkResult × ℕ × ℕ} (h1 : x.2.1 = y.2.1)
    (h2 : x.2.2 = y.2.2) (h3 : x.1.run ≤ y.1.run) : cellLE x y = true := by
  simp [cellLE, h1, h2, h3]

lemma pairwise_runs (s : List ScorerFn) (ms : ℕ) (t : ArenaTask)
    (p : ArenaProvider) (ti pi N : ℕ) :
    ((List.range N).map (fun i => (runCell s ms p t (i + 1), ti, pi))).Pairwise
      (fun a b => cellLE a b = true) := by
  rw [List.pairwise_map]
  apply List.Pairwise.imp ?_ (List.pairwise_lt_range N)
  intro i j hij
  refine cellLE_of_run rfl rfl ?_
  show (runCell s ms p t (i + 1)).run ≤ (runCell s ms p t (j + 1)).run
  rw [(runCell_proj s ms p t (i + 1)).2.2, (runCell_proj s ms p t (j + 1)).2.2]
  omega

lemma mem_inner_tag (s : List ScorerFn) (ms : ℕ) (t : ArenaTask) (ti N : ℕ)
    (ps : List ArenaProvider) (k : ℕ) (x : BenchmarkResult × ℕ × ℕ)
    (hx : x ∈ (ps.enumFrom k).flatMap (fun pi =>
      (List.range N).map (fun i => (runCell s ms pi.2 t (i + 1), ti, pi.1)))) :
    x.2.1 = ti ∧ k ≤ x.2.2 := by
  obtain ⟨pi, hpi, hxmem⟩ := List.mem_flatMap.mp hx
  obtain ⟨i, _, rfl⟩ := List.mem_map.mp hxmem
  obtain ⟨idx, p⟩ := pi
  exact ⟨rfl, (List.mem_enumFrom hpi).1⟩

lemma pairwise_inner (s : List ScorerFn) (ms : ℕ) (t : ArenaTask) (ti N : ℕ) :
    ∀ (ps : List ArenaProvider) (k : ℕ),
      ((ps.enumFrom k).flatMap (fun pi =>
        (List.range N).map (fun i =>
          (runCell s ms pi.2 t (i + 1), ti, pi.1)))).Pairwise
        (fun a b => cellLE a b = true) := by
  intro ps
  induction ps with
  | nil => intro k; simp
  | cons p rest ih =>
      intro k
      rw [List.enumFrom_cons, List.flatMap_cons, List.pairwise_append]
      refine ⟨pairwise_runs s ms t p ti k N, ih (k + 1), ?_⟩
      intro a ha b hb
      obtain ⟨i, _, rfl⟩ := List.mem_map.mp ha
      have hbtag := mem_inner_tag s ms t ti N rest (k + 1) b hb
      exact cellLE_of_prov hbtag.1.symm (by show k < b.2.2; omega)

lemma mem_outer_tag (s : List ScorerFn) (ms : ℕ) (N : ℕ)
    (ps : List ArenaProvider) (ts : List ArenaTask) (k : ℕ)
    (x : BenchmarkResult × ℕ × ℕ)
    (hx : x ∈ (ts.enumFrom k).flatMap (fun tt =>
      (ps.enum).flatMap (fun pi =>
        (List.range N).map (fun i =>
          (runCell s ms pi.2 tt.2 (i + 1), tt.1, pi.1))))) :
    k ≤ x.2.1 := by
  obtain ⟨tt, htt, hxmem⟩ := List.mem_flatMap.mp hx
  obtain ⟨idx, t⟩ := tt
  have := (mem_inner_tag s ms t idx N ps 0 x (by
    simpa [List.enum_eq_enumFrom] using hxmem)).1
  rw [this]
  exact (List.mem_enumFrom htt).1

lemma pairwise_outer (s : List ScorerFn) (ms : ℕ) (N : ℕ)
    (ps : List ArenaProvider) :
    ∀ (ts : List ArenaTask) (k : ℕ),
      ((ts.enumFrom k).flatMap (fun tt =>
        (ps.enum).flatMap (fun pi =>
          (List.range N).map (fun i =>
            (runCell s ms pi.2 tt.2 (i + 1), tt.1, pi.1))))).Pairwise
        (fun a b => cellLE a b = true) := by
  intro ts
  induction ts with
  | nil => intro k; simp
  | cons t rest ih =>
      intro k
      rw [List.enumFrom_cons, List.flatMap_cons, List.pairwise_append]
      refine ⟨by
        simpa [List.enum_eq_enumFrom] using pairwise_inner s ms t k N ps 0,
        ih (k + 1), ?_⟩
      intro a ha b hb
      have hatag := (mem_inner_tag s ms t k N ps 0 a (by
        simpa [List.enum_eq_enumFrom] using ha)).1
      have hbtag := mem_outer_tag s ms N ps rest (k + 1) b hb
      exact cellLE_of_task (by omega)

lemma map_fst_inner (s : List ScorerFn) (ms : ℕ) (t : ArenaTask) (ti N : ℕ) :
    ∀ (ps : List ArenaProvider) (k : ℕ),
      (((ps.enumFrom k).flatMap (fun pi =>
        (List.range N).map (fun i =>
          (runCell s ms pi.2 t (i + 1), ti, pi.1)))).map (fun x => x.1)) =
        ps.flatMap (fun p => (List.range N).map (fun i =>
          runCell s ms p t (i + 1))) := by
  intro ps
  induction ps with
  | nil => intro k; simp
  | cons p rest ih =>
      intro k
      rw [List.enumFrom_cons, List.flatMap_cons, List.map_append,
        List.flatMap_cons, List.map_map, ih (k + 1)]
      rfl

lemma map_fst_outer (s : List ScorerFn) (ms : ℕ) (N : ℕ)
    (ps : List ArenaProvider) :
    ∀ (ts : List ArenaTask) (k : ℕ),
      (((ts.enumFrom k).flatMap (fun tt =>
        (ps.enum).flatMap (fun pi =>
          (List.range N).map (fun i =>
            (runCell s ms pi.2 tt.2 (i + 1), tt.1, pi.1))))).map (fun x => x.1)) =
        ts.flatMap (fun t => ps.flatMap (fun p =>
          (List.range N).map (fun i => runCell s ms p t (i + 1)))) := by
  intro ts
  induction ts with
  | nil => intro k; simp
  | cons t rest ih =>
      intro k
      rw [List.enumFrom_cons, List.flatMap_cons, List.map_append, ih (k + 1),
        List.flatMap_cons]
      congr 1
      simpa [List.enum_eq_enumFrom] using map_fst_inner s ms t k N ps 0

/-- The engine returns exactly the canonical task → provider → run list of
per-cell records (the sort-back step is the identity because the built
nested structure is already in canonical order). -/
lemma runBenchmarks_eq (o : RunOptions) : runBenchmarks o = canonicalCells o := by
  have hassoc : ∀ {α β γ : Type} (l : List α) (f : α → List β) (g : β → List γ),
      (l.flatMap f).flatMap g = l.flatMap (fun a => (f a).flatMap g) := by
    intro α β γ l f g
    induction l with
    | nil => rfl
    | cons a as ih => simp [List.flatMap_cons, List.flatMap_append, ih]
  unfold runBenchmarks canonicalCells
  simp only [← List.flatMap_def, hassoc, List.flatMap_map]
  rw [List.mergeSort_of_sorted (by
    simpa [List.enum_eq_enumFrom] using
      pairwise_outer o.scorers (o.timeout.getD DEFAULT_TIMEOUT_MS) o.runs
        o.providers o.tasks 0)]
  simpa [List.enum_eq_enumFrom] using
    map_fst_outer o.scorers (o.timeout.getD DEFAULT_TIMEOUT_MS) o.runs
      o.providers o.tasks 0

-- ── C3: canonical order, cardinality and run density ────────────────────

lemma sum_map_const {α : Type} (l : List α) (c : ℕ) :
    (l.map (fun _ => c)).sum = l.length * c := by
  induction l with
  | nil => simp
  | cons a as ih => simp [ih, Nat.succ_mul, Nat.add_comm]

lemma length_flatMap_const {α β : Type} (l : List α) (f : α → List β) (c : ℕ)
    (h : ∀ a ∈ l, (f a).length = c) : (l.flatMap f).length = l.length * c := by
  rw [List.length_flatMap]
  rw [show List.map (List.length ∘ f) l = List.map (fun _ => c) l from
    List.map_congr_left (fun a ha => h a ha)]
  exact sum_map_const l c

lemma flatMap_drop_const {α β : Type} (f : α → List β) (c : ℕ) :
    ∀ (l : List α) (i : ℕ), (∀ a ∈ l, (f a).length = c) →
      (l.flatMap f).drop (i * c) = (l.drop i).flatMap f := by
  intro l
  induction l with
  | nil => intro i _; simp
  | cons a as ih =>
      intro i hlen
      cases i with
      | zero => simp
      | succ j =>
          rw [List.flatMap_cons]
          have hfa : (f a).length = c := hlen a (List.mem_cons_self a as)
          have harith : (j + 1) * c = (f a).length + j * c := by
            rw [hfa]; ring
          rw [harith, List.drop_append, List.drop_succ_cons]
          exact ih j (fun b hb => hlen b (List.mem_cons_of_mem a hb))

lemma flatMap_assoc' {α β γ : Type} (l : List α) (f : α → List β)
    (g : β → List γ) :
    (l.flatMap f).flatMap g = l.flatMap (fun a => (f a).flatMap g) := by
  induction l with
  | nil => rfl
  | cons a as ih => simp [List.flatMap_cons, List.flatMap_append, ih]

lemma canonicalCells_pairs (o : RunOptions) :
    canonicalCells o =
      (o.tasks.flatMap (fun t => o.providers.map (fun p => (t, p)))).flatMap
        (fun tp => (List.range o.runs).map (fun i =>
          runCell o.scorers (o.timeout.getD DEFAULT_TIMEOUT_MS) tp.2 tp.1 (i + 1))) := by
  unfold canonicalCells
  rw [flatMap_assoc']
  simp only [List.flatMap_map]

lemma canonical_slice (o : RunOptions) (ti pi : ℕ) (h1 : ti < o.tasks.length)
    (h2 : pi < o.providers.length) :
    ((canonicalCells o).drop ((ti * o.providers.length + pi) * o.runs)).take o.runs =
      (List.range o.runs).map (fun i =>
        runCell o.scorers (o.timeout.getD DEFAULT_TIMEOUT_MS)
          (o.providers.get ⟨pi, h2⟩) (o.tasks.get ⟨ti, h1⟩) (i + 1)) := by
  rw [canonicalCells_pairs]
  rw [flatMap_drop_const _ o.runs _ (ti * o.providers.length + pi)
    (fun tp _ => by simp)]
  have hpairs_drop :
      (o.tasks.flatMap (fun t => o.providers.map (fun p => (t, p)))).drop
        (ti * o.providers.length + pi) =
      ((o.providers.drop pi).map (fun p => (o.tasks.get ⟨ti, h1⟩, p))) ++
        (o.tasks.drop (ti + 1)).flatMap (fun t => o.providers.map (fun p => (t, p))) := by
    rw [← List.drop_drop]
    rw [flatMap_drop_const _ o.providers.length _ ti (fun a _ => by simp)]
    rw [List.drop_eq_getElem_cons (show ti < o.tasks.length from h1),
      List.flatMap_cons]
    rw [List.drop_append_of_le_length (by
      simp only [List.length_map]
      omega)]
    rw [← List.map_drop, List.get_eq_getElem]
  rw [hpairs_drop]
  rw [List.drop_eq_getElem_cons (show pi < o.providers.length from h2),
    List.map_cons, List.cons_append, List.flatMap_cons]
  rw [List.take_left' (by simp)]
  simp [List.get_eq_getElem]

/-- **C3** (confirmed).  For a non-empty provider list, non-empty task
list and `runsPerCell ≥ 1`, `runBenchmarks` resolves to exactly
`|tasks| · |providers| · N` records in canonical order — task-declaration
order, then provider-declaration order, then run index ascending — and the
`(provider, task)` block at declaration indices `(ti, pi)` carries run
values exactly `1..N`, with no gaps and no duplicates. -/
theorem claim_C3 (o : RunOptions) (hp : o.providers ≠ []) (ht : o.tasks ≠ [])
    (hr : 1 ≤ o.runs) :
    (runBenchmarks o).map (fun r => (r.providerId, r.taskName, r.run)) =
      o.tasks.flatMap (fun t => o.providers.flatMap (fun p =>
        (List.range o.runs).map (fun i => (p.id, t.name, i + 1)))) ∧
    (runBenchmarks o).length = o.tasks.length * o.providers.length * o.runs ∧
    (∀ (ti pi : ℕ) (h1 : ti < o.tasks.length) (h2 : pi < o.providers.length),
      (((runBenchmarks o).drop ((ti * o.providers.length + pi) * o.runs)).take
          o.runs).map (fun r => (r.providerId, r.taskName, r.run)) =
        (List.range o.runs).map (fun i =>
          ((o.providers.get ⟨pi, h2⟩).id, (o.tasks.get ⟨ti, h1⟩).name, i + 1))) := by
  refine ⟨?_, ?_, ?_⟩
  · rw [runBenchmarks_eq]
    unfold canonicalCells
    simp only [List.map_flatMap, List.map_map]
    congr 1
    funext t
    congr 1
    funext p
    apply List.map_congr_left
    intro i _
    obtain ⟨e1, e2, e3⟩ :=
      runCell_proj o.scorers (o.timeout.getD DEFAULT_TIMEOUT_MS) p t (i + 1)
    simp [e1, e2, e3]
  · rw [runBenchmarks_eq]
    unfold canonicalCells
    rw [length_flatMap_const _ _ (o.providers.length * o.runs)
      (fun t _ => length_flatMap_const _ _ o.runs (fun p _ => by simp)),
      mul_assoc]
  · intro ti pi h1 h2
    rw [runBenchmarks_eq, canonical_slice o ti pi h1 h2, List.map_map]
    apply List.map_congr_left
    intro i _
    obtain ⟨e1, e2, e3⟩ :=
      runCell_proj o.scorers (o.timeout.getD DEFAULT_TIMEOUT_MS)
        (o.providers.get ⟨pi, h2⟩) (o.tasks.get ⟨ti, h1⟩) (i + 1)
    simp only [List.get_eq_getElem] at e1 e2 e3
    simp [e1, e2, e3]

/-- C3 witness inputs: one ordinary provider and task, two runs. -/
def taskC3 : ArenaTask :=
  { name := "t", prompt := "p", expected := none, schema := none, tools := none }

def provC3 : ArenaProvider :=
  { id := "a", name := "Mock", model := "m"
    behavior := fun _ _ => .ok
      { output := .str "ok", usage := none, latencyMs := 100, raw := none
        toolCalls := none } }

def oC3 : RunOptions :=
  { providers := [provC3], tasks := [taskC3], scorers := [], runs := 2
    timeout := none }

/-- Witness for C3: the 1 × 1 × 2 matrix yields exactly 2 records. -/
theorem claim_C3_witness :
    (runBenchmarks oC3).length = oC3.tasks.length * oC3.providers.length * oC3.runs :=
  (claim_C3 oC3 (List.cons_ne_nil _ _) (List.cons_ne_nil _ _) (by decide)).2.1

-- ── C4: failure containment ─────────────────────────────────────────────

/-- **C4** (confirmed).  A rejected/thrown provider call, a thrown scorer,
or a timeout each produce a *normal* `BenchmarkResult` with `error` set to
the failure message (for a timeout, exactly
`Request timed out after {timeoutMs}ms`; non-`Error` thrown values are
stringified by `Thrown.toMessage`) and `scores = []`; a cell's record
depends only on that cell's own call outcome, and the engine itself is
total — it always returns the full canonical list, never a rejection. -/
theorem claim_C4 (scorers : List ScorerFn) (ms : ℕ) (p : ArenaProvider)
    (t : ArenaTask) (run : ℕ) :
    (∀ e, p.behavior t run = .thrown e →
      runCell scorers ms p t run =
        { providerId := p.id, taskName := t.name, run := run, scores := []
          error := some e.toMessage, raw := errorRaw }) ∧
    (∀ s, Thrown.toMessage (.nonError s) = s) ∧
    (p.behavior t run = .timeout →
      runCell scorers ms p t run =
        { providerId := p.id, taskName := t.name, run := run, scores := []
          error := some ("Request timed out after " ++ toString ms ++ "ms")
          raw := errorRaw }) ∧
    (∀ tr e, p.behavior t run = .ok tr →
      collectScores scorers t tr p.id = .error e →
      runCell scorers ms p t run =
        { providerId := p.id, taskName := t.name, run := run, scores := []
          error := some e.toMessage, raw := errorRaw }) ∧
    (∀ p' : ArenaProvider, p.id = p'.id → p.behavior t run = p'.behavior t run →
      runCell scorers ms p t run = runCell scorers ms p' t run) ∧
    (∀ o : RunOptions, runBenchmarks o = canonicalCells o) := by
  refine ⟨?_, fun s => rfl, ?_, ?_, ?_, runBenchmarks_eq⟩
  · intro e he
    unfold runCell
    rw [he]
    rfl
  · intro htimeout
    unfold runCell
    rw [htimeout]
    rfl
  · intro tr e hok hsc
    unfold runCell
    rw [hok]
    show (match collectScores scorers t tr p.id with
      | .ok scores =>
          ({ providerId := p.id, taskName := t.name, run := run
             scores := scores, error := none
             raw := { output := tr.output, latencyMs := tr.latencyMs
                      usage := tr.usage, toolCalls := tr.toolCalls } } : BenchmarkResult)
      | .error e =>
          { providerId := p.id, taskName := t.name, run := run
            scores := [], error := some e.toMessage, raw := errorRaw }) = _
    rw [hsc]
  · intro p' hid hbeh
    unfold runCell
    rw [hbeh, hid]

/-- C4 witness inputs: a provider that never settles in time. -/
def taskC4 : ArenaTask :=
  { name := "t", prompt := "p", expected := none, schema := none, tools := none }

def provC4 : ArenaProvider :=
  { id := "a", name := "Mock", model := "m", behavior := fun _ _ => .timeout }

/-- Witness for C4: a timed-out cell records the exact formatted message
and an empty score list. -/
theorem claim_C4_witness :
    runCell [] 5 provC4 taskC4 1 =
      { providerId := provC4.id, taskName := taskC4.name, run := 1, scores := []
        error := some ("Request timed out after " ++ toString 5 ++ "ms")
        raw := errorRaw } :=
  (claim_C4 [] 5 provC4 taskC4 1).2.2.1 rfl

-- ── C7: error ⇔ empty scores ────────────────────────────────────────────

lemma collectScores_length (scorers : List ScorerFn) (t : ArenaTask)
    (tr : TaskResult) (pid : String) :
    ∀ l, collectScores scorers t tr pid = .ok l → l.length = scorers.length := by
  induction scorers with
  | nil =>
      intro l h
      unfold collectScores at h
      cases h
      rfl
  | cons f rest ih =>
      intro l h
      unfold collectScores at h
      cases hf : f t tr pid with
      | error e => rw [hf] at h; cases h
      | ok s =>
          rw [hf] at h
          cases hrest : collectScores rest t tr pid with
          | error e => rw [hrest] at h; cases h
          | ok ss =>
              rw [hrest] at h
              cases h
              simp [ih ss hrest]

/-- **C7** (corrected).  Every record emitted by `runBenchmarks` with
`error` set has `scores = []`, and every error-free record has exactly one
score per configured scorer; hence `error` set ⇔ `scores = []` holds
whenever the configured scorer list is non-empty.  Amendment: with an
*empty* configured scorer list a successful cell also has `scores = []`
with no error, so the biconditional as claimed fails. -/
lemma runCell_eq_error {s : List ScorerFn} {ms : ℕ} {p : ArenaProvider}
    {t : ArenaTask} {r : ℕ} {e : Thrown}
    (h : withTimeout (p.behavior t r) ms = .error e) :
    runCell s ms p t r =
      { providerId := p.id, taskName := t.name, run := r, scores := []
        error := some e.toMessage, raw := errorRaw } := by
  unfold runCell
  rw [h]

lemma runCell_eq_scorerError {s : List ScorerFn} {ms : ℕ} {p : ArenaProvider}
    {t : ArenaTask} {r : ℕ} {tr : TaskResult} {e : Thrown}
    (h : withTimeout (p.behavior t r) ms = .ok tr)
    (hc : collectScores s t tr p.id = .error e) :
    runCell s ms p t r =
      { providerId := p.id, taskName := t.name, run := r, scores := []
        error := some e.toMessage, raw := errorRaw } := by
  unfold runCell
  rw [h]
  show (match collectScores s t tr p.id with
    | .ok scores =>
        ({ providerId := p.id, taskName := t.name, run := r
           scores := scores, error := none
           raw := { output := tr.output, latencyMs := tr.latencyMs
                    usage := tr.usage, toolCalls := tr.toolCalls } } : BenchmarkResult)
    | .error e =>
        { providerId := p.id, taskName := t.name, run := r
          scores := [], error := some e.toMessage, raw := errorRaw }) = _
  rw [hc]

lemma runCell_eq_ok {s : List ScorerFn} {ms : ℕ} {p : ArenaProvider}
    {t : ArenaTask} {r : ℕ} {tr : TaskResult} {scores : List ScoreResult}
    (h : withTimeout (p.behavior t r) ms = .ok tr)
    (hc : collectScores s t tr p.id = .ok scores) :
    runCell s ms p t r =
      { providerId := p.id, taskName := t.name, run := r
        scores := scores, error := none
        raw := { output := tr.output, latencyMs := tr.latencyMs
                 usage := tr.usage, toolCalls := tr.toolCalls } } := by
  unfold runCell
  rw [h]
  show (match collectScores s t tr p.id with
    | .ok scores =>
        ({ providerId := p.id, taskName := t.name, run := r
           scores := scores, error := none
           raw := { output := tr.output, latencyMs := tr.latencyMs
                    usage := tr.usage, toolCalls := tr.toolCalls } } : BenchmarkResult)
    | .error e =>
        { providerId := p.id, taskName := t.name, run := r
          scores := [], error := some e.toMessage, raw := errorRaw }) = _
  rw [hc]

theorem claim_C7_amended (o : RunOptions) (r : BenchmarkResult)
    (hr : r ∈ runBenchmarks o) :
    (r.error.isSome = true → r.scores = []) ∧
    (r.error = none → r.scores.length = o.scorers.length) ∧
    (o.scorers ≠ [] → (r.error.isSome = true ↔ r.scores = [])) := by
  rw [runBenchmarks_eq] at hr
  unfold canonicalCells at hr
  obtain ⟨t, _, hr⟩ := List.mem_flatMap.mp hr
  obtain ⟨p, _, hr⟩ := List.mem_flatMap.mp hr
  obtain ⟨i, _, rfl⟩ := List.mem_map.mp hr
  cases hw : withTimeout (p.behavior t (i + 1)) (o.timeout.getD DEFAULT_TIMEOUT_MS) with
  | error e =>
      rw [runCell_eq_error hw]
      exact ⟨fun _ => rfl, fun hnone => absurd hnone (by simp),
        fun _ => ⟨fun _ => rfl, fun _ => rfl⟩⟩
  | ok tr =>
      cases hc : collectScores o.scorers t tr p.id with
      | error e =>
          rw [runCell_eq_scorerError hw hc]
          exact ⟨fun _ => rfl, fun hnone => absurd hnone (by simp),
            fun _ => ⟨fun _ => rfl, fun _ => rfl⟩⟩
      | ok scores =>
          have hlen := collectScores_length o.scorers t tr p.id scores hc
          rw [runCell_eq_ok hw hc]
          refine ⟨fun hsome => absurd hsome (by simp), fun _ => hlen, fun hs => ?_⟩
          constructor
          · intro hsome; exact absurd hsome (by simp)
          · intro hnil
            exfalso
            apply hs
            have h0 : o.scorers.length = 0 := by
              rw [← hlen]
              show scores.length = 0
              rw [show scores = [] from hnil]
              rfl
            exact List.length_eq_zero.mp h0

/-- C7 counterexample inputs: a successful provider with an *empty*
configured scorer list. -/
def taskC7 : ArenaTask :=
  { name := "t", prompt := "p", expected := none, schema := none, tools := none }

def provC7 : ArenaProvider :=
  { id := "a", name := "Mock", model := "m"
    behavior := fun _ _ => .ok
      { output := .str "hello", usage := none, latencyMs := 100, raw := none
        toolCalls := none } }

def oC7 : RunOptions :=
  { providers := [provC7], tasks := [taskC7], scorers := [], runs := 1
    timeout := none }

/-- **C7**, counterexample to the claim as stated: with an empty configured
scorer list, the single emitted result has no `error` *and* an empty score
list, refuting `error set ⇔ scores = []`. -/
theorem claim_C7_counterexample :
    oC7.scorers = [] ∧
    (runBenchmarks oC7).map (fun r => (r.error, r.scores.isEmpty)) =
      [(none, true)] := by
  refine ⟨rfl, ?_⟩
  rw [runBenchmarks_eq]
  rfl

/-- C7 witness inputs: a provider whose call always rejects, and one
configured scorer. -/
def provC7e : ArenaProvider :=
  { id := "a", name := "Mock", model := "m"
    behavior := fun _ _ => .thrown (.errObj "boom") }

def scorerC7 : ScorerFn :=
  fun _ _ _ => .ok { name := "s", value := 1, details := none }

def oC7e : RunOptions :=
  { providers := [provC7e], tasks := [taskC7], scorers := [scorerC7], runs := 1
    timeout := none }

def rC7 : BenchmarkResult :=
  runCell oC7e.scorers (oC7e.timeout.getD DEFAULT_TIMEOUT_MS) provC7e taskC7 1

/-- Witness for C7 (amended): the failing cell of `oC7e` has its error set
and an empty score list. -/
theorem claim_C7_witness : rC7.scores = [] ∧ rC7.error.isSome = true := by
  have hmem : rC7 ∈ runBenchmarks oC7e := by
    rw [runBenchmarks_eq]
    exact List.mem_singleton.mpr rfl
  have h := claim_C7_amended oC7e rC7 hmem
  exact ⟨h.1 rfl, rfl⟩

-- ── C8: score-value range of the built-in scorers ───────────────────────

/-- **C8** (corrected).  The latency and correctness scorers always return
a value in `[0, 1]`; the cost scorer returns the `-1` sentinel when no
pricing is known and otherwise the raw USD estimate
`inputPerToken · promptTokens + outputPerToken · completionTokens`, which
is non-negative for non-negative rates and token counts but is **not**
bounded by 1. -/
lemma round2_bounds (v : ℚ) (h0 : 0 ≤ v) (h1 : v ≤ 1) :
    0 ≤ ((jsRound (v * 100) : ℤ) : ℚ) / 100 ∧
    ((jsRound (v * 100) : ℤ) : ℚ) / 100 ≤ 1 := by
  unfold jsRound
  have hfl0 : (0 : ℤ) ≤ ⌊v * 100 + 1 / 2⌋ := Int.floor_nonneg.mpr (by linarith)
  have hfl1 : ⌊v * 100 + 1 / 2⌋ < 101 := Int.floor_lt.mpr (by push_cast; linarith)
  constructor
  · have hcast : (0 : ℚ) ≤ ((⌊v * 100 + 1 / 2⌋ : ℤ) : ℚ) := by exact_mod_cast hfl0
    linarith
  · have hle : ⌊v * 100 + 1 / 2⌋ ≤ 100 := by omega
    have hcast : ((⌊v * 100 + 1 / 2⌋ : ℤ) : ℚ) ≤ 100 := by exact_mod_cast hle
    linarith

theorem claim_C8_amended (lookupPricing : String → Option ModelPricing)
    (task : ArenaTask) (result : TaskResult) (providerId : String) :
    (0 ≤ (latencyScorer result).value ∧ (latencyScorer result).value ≤ 1) ∧
    (0 ≤ (correctnessScorer task result).value ∧
      (correctnessScorer task result).value ≤ 1) ∧
    (lookupPricing providerId = none →
      (costScorer lookupPricing result providerId).value = -1) ∧
    (∀ pricing, lookupPricing providerId = some pricing →
      (costScorer lookupPricing result providerId).value =
        estimateCost pricing ((result.usage.bind (fun u => u.promptTokens)).getD 0)
          ((result.usage.bind (fun u => u.completionTokens)).getD 0) ∧
      (0 ≤ pricing.inputPerToken → 0 ≤ pricing.outputPerToken →
       0 ≤ (result.usage.bind (fun u => u.promptTokens)).getD 0 →
       0 ≤ (result.usage.bind (fun u => u.completionTokens)).getD 0 →
       0 ≤ (costScorer lookupPricing result providerId).value)) := by
  refine ⟨?_, ?_, ?_, ?_⟩
  · -- latency
    have hcl1 : MIN_MS ≤ max MIN_MS (min MAX_MS result.latencyMs) :=
      le_max_left _ _
    have hcl2 : max MIN_MS (min MAX_MS result.latencyMs) ≤ MAX_MS :=
      max_le (by norm_num [MIN_MS, MAX_MS]) (min_le_left _ _)
    have hden : (0 : ℚ) < MAX_MS - MIN_MS := by norm_num [MIN_MS, MAX_MS]
    have hfrac0 : 0 ≤ (max MIN_MS (min MAX_MS result.latencyMs) - MIN_MS) /
        (MAX_MS - MIN_MS) :=
      div_nonneg (by linarith) (le_of_lt hden)
    have hfrac1 : (max MIN_MS (min MAX_MS result.latencyMs) - MIN_MS) /
        (MAX_MS - MIN_MS) ≤ 1 := by
      rw [div_le_one hden]
      linarith
    exact round2_bounds _ (by linarith) (by linarith)
  · -- correctness
    unfold correctnessScorer
    cases task.expected with
    | none => norm_num
    | some e =>
        by_cases hm : deepEqual e result.output <;> simp [hm]
  · -- cost, unknown pricing
    intro hnone
    unfold costScorer
    rw [hnone]
  · -- cost, known pricing
    intro pricing hsome
    constructor
    · unfold costScorer
      rw [hsome]
    · intro hin hout hpt hct
      unfold costScorer
      rw [hsome]
      show 0 ≤ estimateCost pricing _ _
      unfold estimateCost
      have := mul_nonneg hin hpt
      have := mul_nonneg hout hct
      linarith

/-- C8 counterexample input: the catalog pricing of `openai/gpt-4o`
($2.50 per 1M input tokens, $10 per 1M output tokens) and a one-million
prompt-token call. -/
def lkC8 : String → Option ModelPricing :=
  fun pid => if pid = "openai/gpt-4o"
    then some { inputPerToken := 25 / 10000000, outputPerToken := 1 / 100000 }
    else none

def resC8 : TaskResult :=
  { output := .str "", usage := some { promptTokens := some 1000000
                                       completionTokens := some 0 }
    latencyMs := 100, raw := none, toolCalls := none }

/-- **C8**, counterexample to the claim as stated: the cost scorer's value
for this call is 2.5 — neither in `[0, 1]` nor the `-1` sentinel. -/
theorem claim_C8_counterexample :
    (costScorer lkC8 resC8 "openai/gpt-4o").value = 5 / 2 ∧
    1 < (costScorer lkC8 resC8 "openai/gpt-4o").value ∧
    (costScorer lkC8 resC8 "openai/gpt-4o").value ≠ -1 := by
  have hval : (costScorer lkC8 resC8 "openai/gpt-4o").value = 5 / 2 := by
    norm_num [costScorer, lkC8, resC8, estimateCost, Option.bind]
  refine ⟨hval, ?_, ?_⟩ <;> rw [hval] <;> norm_num

/-- Witness for C8 (amended): with zero pricing and no usage the cost
value is the (non-negative) estimate 0. -/
theorem claim_C8_witness :
    0 ≤ (costScorer (fun _ => some { inputPerToken := 0, outputPerToken := 0 })
      { output := .str "", usage := none, latencyMs := 0, raw := none
        toolCalls := none } "m").value :=
  (((claim_C8_amended (fun _ => some { inputPerToken := 0, outputPerToken := 0 })
      taskC7 { output := .str "", usage := none, latencyMs := 0, raw := none
               toolCalls := none } "m").2.2.2)
    { inputPerToken := 0, outputPerToken := 0 } rfl).2
    (by decide) (by decide) (by decide) (by decide)

end Duelist
